import Mathlib

/-!
# Sensebender Micro: measurement and report policy

A shallow embedding of `src/main.cpp` (the sketch of a battery powered
temperature / humidity node) and theorems about its reporting policy.

Conventions of the embedding

* The global variables of the sketch are the fields of `State`; every function
  of the sketch takes the state and returns the new state together with the
  list of values it handed to the radio (`Event`), in program order.
* `float` and `double` are both the 32 bit IEEE format on the AVR target.  A
  `float` value is modelled by the rational it denotes, a possibly
  not-a-number `float` by `Option ℚ` (`none` is not-a-number), and `roundF32`
  rounds a rational to the nearest `float`.
* `lastTemperature` holds the decimal value `n / 100` of the quotient that was
  stored in it (initially -100), and so does a reported temperature; the
  `float` that the program holds is `roundF32` of that value, and the
  temperature comparison is carried out on the rounded values.
* On the humidity path every value that occurs (an integer below 65536, the sum
  and the mean of at most `AVERAGES` of them, a difference of these) is a
  `float`, so that rounding changes nothing there and is left out.
* The battery percentage is the integer part of the exact quotient
  `(vcc - 1900) / 14`, and the reported voltage is the exact quotient
  `vcc / 1000`.
* `int` is the 16 bit integer of the AVR target: the conversion of an unsigned
  16 bit value to `int` is `toInt16`.  The two counters are plain integers:
  `measureCount` is shown below to stay under `FORCE_TRANSMIT_INTERVAL`, and
  `sendBattery` is reset long before it could reach the 16 bit bound.
* The hardware is an input: the sample returned by the sensor
  (`si7021_thc`) and the two ADC result registers read by `readVcc`.
* An operation whose behaviour is undefined (the division by zero in
  `readVcc`) yields `none`.
* Serial debug printing has no effect on the state or the radio and is left out.
* `testMode` never returns: its embedding yields the endless loop it ends in
  and the calls it made to the peripherals, whose answers are an input.
-/

namespace Sensebender

/-! ## Constants (`#define`s of the sketch) -/

/-- Capacity of the humidity smoothing window, `#define AVERAGES 2`. -/
def AVERAGES : Nat := 2

/-- Milliseconds between two measurements, `#define MEASURE_INTERVAL 60000`. -/
def MEASURE_INTERVAL : Nat := 60000

/-- Milliseconds to wait for a firmware update, `#define OTA_WAIT_PERIOD 300`. -/
def OTA_WAIT_PERIOD : Nat := 300

/-- Number of wake-ups after which a report is forced,
`#define FORCE_TRANSMIT_INTERVAL 30`. -/
def FORCE_TRANSMIT_INTERVAL : Int := 30

/-! ## Floating point -/

/-- Rounding of a rational to the nearest integer, a tie going to the even
neighbour. -/
def roundHalfEven (x : ℚ) : Int :=
  let f := Int.floor x
  if x - f < 1 / 2 then f
  else if 1 / 2 < x - f then f + 1
  else if f % 2 = 0 then f else f + 1

/-- The number of halvings that bring `n` below 2, which is `⌊log₂ n⌋` when
`n ≤ fuel`. -/
def log2Fuel : Nat → Nat → Nat
  | 0, _ => 0
  | fuel + 1, n => if 2 ≤ n then log2Fuel fuel (n / 2) + 1 else 0

/-- The number of rounded up halvings that bring `n` below 2, which is
`⌈log₂ n⌉` when `n ≤ fuel`. -/
def clog2Fuel : Nat → Nat → Nat
  | 0, _ => 0
  | fuel + 1, n => if 2 ≤ n then clog2Fuel fuel ((n + 1) / 2) + 1 else 0

/-- The binary exponent `⌊log₂ q⌋` of a positive rational: `2 ^ e ≤ q < 2 ^ (e + 1)`. -/
def floorLog2 (q : ℚ) : Int :=
  if 1 ≤ q then (log2Fuel ⌊q⌋₊ ⌊q⌋₊ : Int) else -(clog2Fuel ⌈q⁻¹⌉₊ ⌈q⁻¹⌉₊ : Int)

/-- Rounding to the nearest `float` (IEEE binary32: a significand of 24 bits,
round to nearest, ties to even).  Every `float` operation of the sketch returns
`roundF32` of the exact result.  The limits of the exponent are not modelled: the
values that occur here are zero or lie between `2^-24` and `2^17`. -/
def roundF32 (q : ℚ) : ℚ :=
  if q = 0 then 0
  else
    let e : Int := floorLog2 |q|
    let ulp : ℚ := (2 : ℚ) ^ (e - 23)
    (roundHalfEven (q / ulp) : ℚ) * ulp

/-- The decimal values that `lastTemperature` stands for: `n / 100` for a 16 bit
integer `n`, that is a quotient `celsiusHundredths / 100` or the initial -100. -/
def isHundredths (q : ℚ) : Prop :=
  (q * 100).den = 1 ∧ -32768 ≤ (q * 100).num ∧ (q * 100).num ≤ 32767

instance isHundredthsDecidable (q : ℚ) : Decidable (isHundredths q) :=
  inferInstanceAs (Decidable ((q * 100).den = 1 ∧ -32768 ≤ (q * 100).num ∧
    (q * 100).num ≤ 32767))

/-! ## Thresholds (`#define`s of the sketch) -/

/-- Humidity change that triggers a report, `#define HUMI_TRANSMIT_THRESHOLD 0.3`:
the literal `0.3` denotes the `float` nearest to 0.3. -/
def HUMI_TRANSMIT_THRESHOLD : ℚ := roundF32 (3 / 10)

/-- Temperature change that triggers a report, `#define TEMP_TRANSMIT_THRESHOLD 0.3`:
the literal `0.3` denotes the `float` nearest to 0.3. -/
def TEMP_TRANSMIT_THRESHOLD : ℚ := roundF32 (3 / 10)

/-! ## Machine integers -/

/-- Value of the low 16 bits of `n` read as a two's complement `int`. -/
def toInt16 (n : Nat) : Int :=
  if n % 65536 < 32768 then ((n % 65536 : Nat) : Int) else ((n % 65536 : Nat) : Int) - 65536

/-- Conversion of a `float` to `long`: the fractional part is discarded
(truncation toward zero). -/
def truncToLong (q : ℚ) : Int :=
  if 0 ≤ q then Int.floor q else Int.ceil q

/-! ## The humidity smoother -/

/-- Modelled from the spec: the `RunningAverage` class of the smoothing library,
which is not part of the sources.  Section 4.2: a bounded window of capacity
`size` holding the latest readings, oldest first. -/
structure RunningAverage where
  /-- Capacity of the window. -/
  size : Nat
  /-- Values currently held, oldest first. -/
  values : List ℚ
deriving DecidableEq, Repr

namespace RunningAverage

/-- Modelled from the spec: the constructor `RunningAverage(n)`, an empty window
of capacity `n`. -/
def create (n : Nat) : RunningAverage :=
  { size := n, values := [] }

/-- Modelled from the spec: `clear` empties the window. -/
def clear (ra : RunningAverage) : RunningAverage :=
  { ra with values := [] }

/-- Modelled from the spec: `addValue` stores the new reading and, once the
window is full, overwrites the oldest slot (ring semantics), so that at most
`size` values are held. -/
def addValue (ra : RunningAverage) (v : ℚ) : RunningAverage :=
  { ra with values := (ra.values ++ [v]).drop ((ra.values ++ [v]).length - ra.size) }

/-- Modelled from the spec: `getAverage` is the arithmetic mean of all values
currently held, or not-a-number (`none`) if the window is empty. -/
def getAverage (ra : RunningAverage) : Option ℚ :=
  if ra.values.length = 0 then none
  else some (ra.values.sum / (ra.values.length : ℚ))

end RunningAverage

/-! ## Floating point helpers -/

/-- The test `isnan(x)`. -/
def isnan (x : Option ℚ) : Bool :=
  x.isNone

/-- The comparison `x >= t` of a possibly not-a-number `x` with the number `t`;
every comparison with not-a-number is false. -/
def geF (x : Option ℚ) (t : ℚ) : Bool :=
  match x with
  | none => false
  | some v => decide (t ≤ v)

/-! ## Data model -/

/-- Result of `humiditySensor.getTempAndRH()`: the temperature in hundredths of
a degree Celsius (`int`) and the relative humidity in percent (`unsigned int`). -/
structure si7021_thc where
  celsiusHundredths : Int
  humidityPercent : Nat
deriving DecidableEq, Repr

/-- What the hardware delivers during one call: the sensor sample and the
contents of the ADC result registers `ADCL` and `ADCH` after a conversion. -/
structure Input where
  data : si7021_thc
  adcl : Nat
  adch : Nat
deriving DecidableEq, Repr

/-- The global variables of the sketch. -/
structure State where
  measureCount : Int
  sendBattery : Int
  transmission_occured : Bool
  lastTemperature : ℚ
  lastHumidity : Int
  lastBattery : Int
  raHum : RunningAverage
deriving DecidableEq, Repr

/-- What the sketch hands to its collaborators, in program order. -/
inductive Event where
  /-- The call `send(msgTemp.set(temperature,1))`. -/
  | temperature (v : ℚ)
  /-- The call `send(msgHum.set(humidity))`. -/
  | humidity (v : Int)
  /-- The call `send(msgBatt.set(send_voltage, 3))`. -/
  | voltage (v : ℚ)
  /-- The call `sendBatteryLevel(percent)`. -/
  | batteryLevel (percent : Int)
  /-- The call `wait(ms)`. -/
  | wait (ms : Nat)
  /-- The call `sleep(ms)`. -/
  | sleep (ms : Nat)
deriving DecidableEq, Repr

/-- The initial values of the global variables. -/
def initState : State :=
  { measureCount := 0
    sendBattery := 0
    transmission_occured := false
    lastTemperature := -100
    lastHumidity := -100
    lastBattery := -100
    raHum := RunningAverage.create AVERAGES }

/-! ## Supply voltage -/

/-- The expression `(high<<8) | low` of `readVcc`, where `low` and `high` are the
bytes read from `ADCL` and `ADCH`; the result is an `int`. -/
def adcResult (adcl adch : Nat) : Int :=
  toInt16 (((adch % 256) <<< 8) ||| (adcl % 256))

/-- The hardware input is acceptable to `readVcc`: the ADC conversion result is
not zero, so the division in `readVcc` is defined. -/
def adcValid (i : Input) : Prop :=
  adcResult i.adcl i.adch ≠ 0

instance adcValidDecidable (i : Input) : Decidable (adcValid i) :=
  inferInstanceAs (Decidable (adcResult i.adcl i.adch ≠ 0))

/-- The function `readVcc`: the supply voltage in millivolts, computed from the
ADC conversion result; undefined (`none`) when the result is zero. -/
def readVcc (adcl adch : Nat) : Option Int :=
  let result : Int := adcResult adcl adch
  if result = 0 then none
  else some (Int.tdiv 1125300 result)

/-- The battery percentage computed by `sendBattLevel` from the millivolt
reading: `vcc = vcc - 1900; long percent = vcc / 14.0;`. -/
def batteryPercent (vcc : Int) : Int :=
  let vcc := vcc - 1900
  truncToLong ((vcc : ℚ) / 14)

/-- The function `sendBattLevel(force)`. -/
def sendBattLevel (force : Bool) (adcl adch : Nat) (s : State) :
    Option (State × List Event) :=
  let s := if force then { s with lastBattery := -1 } else s
  match readVcc adcl adch with
  | none => none
  | some vcc =>
    if vcc ≠ s.lastBattery then
      let s := { s with lastBattery := vcc }
      let send_voltage : ℚ := (vcc : ℚ) / 1000
      let percent : Int := batteryPercent vcc
      some ({ s with transmission_occured := true },
        [Event.voltage send_voltage, Event.batteryLevel percent])
    else
      some (s, [])

/-! ## Temperature and humidity -/

/-- The value of the local `diffTemp` of `sendMeasurements`:
`abs(lastTemperature - data.celsiusHundredths/100.0)`.  The quotient is rounded
to a `float`, it is subtracted from the `float` held in `lastTemperature`, and
the difference is rounded again.  A state whose `lastTemperature` is not a
decimal value `n / 100` of the 16 bit range does not arise from the sketch; for
such a value the difference is taken exactly. -/
def diffTemp (s : State) (data : si7021_thc) : ℚ :=
  if isHundredths s.lastTemperature then
    roundF32 |roundF32 s.lastTemperature - roundF32 ((data.celsiusHundredths : ℚ) / 100)|
  else
    |s.lastTemperature - (data.celsiusHundredths : ℚ) / 100|

/-- The smoothing window after `raHum.addValue(data.humidityPercent)`. -/
def raHumAfter (s : State) (data : si7021_thc) : RunningAverage :=
  s.raHum.addValue (data.humidityPercent : ℚ)

/-- The value of the local `diffHum` of `sendMeasurements`:
`abs(lastHumidity - raHum.getAverage())`, taken after the current humidity has
been added to the window.  The difference of the integer `lastHumidity` and the
mean of at most `AVERAGES` humidity readings is a `float`, so no rounding takes
place. -/
def diffHum (s : State) (data : si7021_thc) : Option ℚ :=
  ((raHumAfter s data).getAverage).map (fun a => |(s.lastHumidity : ℚ) - a|)

/-- The value of the local `tx` of `sendMeasurements` when the test `if (tx)` is
reached. -/
def txDecision (force : Bool) (s : State) (data : si7021_thc) : Bool :=
  let tx := force
  let tx := if isnan (diffHum s data) then true else tx
  let tx := if TEMP_TRANSMIT_THRESHOLD ≤ diffTemp s data then true else tx
  let tx := if geF (diffHum s data) HUMI_TRANSMIT_THRESHOLD then true else tx
  tx

/-- The function `sendMeasurements(force)`. -/
def sendMeasurements (force : Bool) (i : Input) (s : State) :
    Option (State × List Event) :=
  let tx := txDecision force s i.data
  let s := { s with raHum := raHumAfter s i.data }
  if tx then
    let s := { s with measureCount := 0 }
    let temperature : ℚ := (i.data.celsiusHundredths : ℚ) / 100
    let humidity : Int := toInt16 i.data.humidityPercent
    let sent := [Event.temperature temperature, Event.humidity humidity]
    let s := { s with lastTemperature := temperature
                      lastHumidity := humidity
                      transmission_occured := true }
    if s.sendBattery > 60 then
      match sendBattLevel true i.adcl i.adch s with
      | none => none
      | some (s, sentBatt) => some ({ s with sendBattery := 0 }, sent ++ sentBatt)
    else
      some (s, sent)
  else
    some (s, [])

/-! ## The duty cycle -/

/-- The value of the local `forceTransmit` of `loop` when `sendMeasurements` is
called: the incremented counter has reached `FORCE_TRANSMIT_INTERVAL`. -/
def forceTransmit (s : State) : Bool :=
  decide (FORCE_TRANSMIT_INTERVAL ≤ s.measureCount + 1)

/-- The function `loop`: one wake cycle. -/
def loop (i : Input) (s : State) : Option (State × List Event) :=
  let force := forceTransmit s
  let s := { s with measureCount := s.measureCount + 1 }
  let s := { s with sendBattery := s.sendBattery + 1 }
  let s := { s with transmission_occured := false }
  let s := if force then { s with measureCount := 0 } else s
  match sendMeasurements force i s with
  | none => none
  | some (s, sent) =>
    let sent := if s.transmission_occured then sent ++ [Event.wait OTA_WAIT_PERIOD] else sent
    some (s, sent ++ [Event.sleep MEASURE_INTERVAL])

/-- The function `setup` on a normal boot (test pin high): the window is
cleared and the initial values are reported. -/
def setup (i : Input) : Option (State × List Event) :=
  let s := { initState with raHum := initState.raHum.clear }
  match sendMeasurements false i s with
  | none => none
  | some (s, sent) =>
    match sendBattLevel false i.adcl i.adch s with
    | none => none
    | some (s, sentBatt) => some (s, sent ++ sentBatt)

/-- Successive wake cycles: `loop` is run once for each input; the result is
the final state and, for each cycle, what that cycle emitted. -/
def run : List Input → State → Option (State × List (List Event))
  | [], s => some (s, [])
  | i :: is, s =>
    match loop i s with
    | none => none
    | some (s, sent) =>
      match run is s with
      | none => none
      | some (s, rest) => some (s, sent :: rest)

/-- A temperature report and a humidity report are among the emitted values. -/
def transmits (sent : List Event) : Bool :=
  sent.any (fun e => match e with
    | Event.temperature _ => true
    | _ => false) &&
  sent.any (fun e => match e with
    | Event.humidity _ => true
    | _ => false)

/-- A voltage report and a battery level report are among the emitted values. -/
def reportsBattery (sent : List Event) : Bool :=
  sent.any (fun e => match e with
    | Event.voltage _ => true
    | _ => false) &&
  sent.any (fun e => match e with
    | Event.batteryLevel _ => true
    | _ => false)

/-! ## The self-test -/

/-- What the peripherals answer during the self-test: the results of
`humiditySensor.begin()` and `flash.initialize()`, and the status codes
(`uint8_t`) returned by `sha204.sha204c_wakeup` and `sha204.getSerialNumber`. -/
structure ProbeResults where
  sensorBegin : Bool
  flashInitialize : Bool
  wakeup : Nat
  serialNumber : Nat
deriving DecidableEq, Repr

/-- The calls that `testMode` makes to the peripherals. -/
inductive ProbeCall where
  /-- The call `humiditySensor.begin()`. -/
  | sensorBegin
  /-- The call `flash.initialize()`. -/
  | flashInitialize
  /-- The call `sha204.sha204c_wakeup(rx_buffer)`. -/
  | sha204Wakeup
  /-- The call `sha204.getSerialNumber(rx_buffer)`. -/
  | getSerialNumber
deriving DecidableEq, Repr

/-- The two endless loops in which `testMode` ends; neither returns. -/
inductive SelfTestResult where
  /-- The branch `tests == 3`: "Selftest ok!", the LED blinks. -/
  | passed
  /-- The other branch: "Selftest failed!", the LED stays on. -/
  | failed
deriving DecidableEq, Repr

/-- The function `testMode`.  The status code `SHA204_SUCCESS` is declared in
the header of the identity chip library, which is not part of the sources, and
is taken as a parameter.  The result is the terminal loop that is entered and
the calls made to the peripherals, in program order. -/
def testMode (SHA204_SUCCESS : Nat) (p : ProbeResults) : SelfTestResult × List ProbeCall :=
  let tests : Nat := 0
  let calls := [ProbeCall.sensorBegin]
  let tests := if p.sensorBegin then tests + 1 else tests
  let calls := calls ++ [ProbeCall.flashInitialize]
  let tests := if p.flashInitialize then tests + 1 else tests
  let calls := calls ++ [ProbeCall.sha204Wakeup]
  let ret_code := p.wakeup
  let (tests, calls) :=
    if ret_code = SHA204_SUCCESS then
      let calls := calls ++ [ProbeCall.getSerialNumber]
      let ret_code := p.serialNumber
      if ret_code ≠ SHA204_SUCCESS then (tests, calls) else (tests + 1, calls)
    else (tests, calls)
  if tests = 3 then (SelfTestResult.passed, calls) else (SelfTestResult.failed, calls)


/-! ## Basic facts about the embedding -/

theorem toInt16_bounds (n : Nat) : -32768 ≤ toInt16 n ∧ toInt16 n < 32768 := by
  unfold toInt16
  split <;> omega

theorem adcResult_bounds (adcl adch : Nat) :
    -32768 ≤ adcResult adcl adch ∧ adcResult adcl adch < 32768 :=
  toInt16_bounds _

theorem tdiv_ne_neg_one (r : Int) (hlo : -32768 ≤ r) (hhi : r < 32768) (h0 : r ≠ 0) :
    Int.tdiv 1125300 r ≠ -1 := by
  rcases lt_or_gt_of_ne h0 with hneg | hpos
  · obtain ⟨m, rfl⟩ : ∃ m : Int, r = -m := ⟨-r, by omega⟩
    have hm0 : 0 ≤ m := by omega
    rw [Int.tdiv_neg, Int.tdiv_eq_ediv (by norm_num) hm0]
    have : 34 ≤ 1125300 / m := by
      apply Int.le_ediv_of_mul_le (by omega)
      omega
    omega
  · rw [Int.tdiv_eq_ediv (by norm_num) (by omega)]
    have : 0 ≤ 1125300 / r := Int.ediv_nonneg (by norm_num) (by omega)
    omega

theorem readVcc_of_ne_zero (adcl adch : Nat) (h : adcResult adcl adch ≠ 0) :
    readVcc adcl adch = some (Int.tdiv 1125300 (adcResult adcl adch)) := by
  simp [readVcc, h]

theorem readVcc_ne_neg_one (adcl adch : Nat) (vcc : Int)
    (h : readVcc adcl adch = some vcc) : vcc ≠ -1 := by
  unfold readVcc at h
  by_cases h0 : adcResult adcl adch = 0
  · simp [h0] at h
  · simp [h0] at h
    rw [← h]
    exact tdiv_ne_neg_one _ (adcResult_bounds _ _).1 (adcResult_bounds _ _).2 h0

theorem sendBattLevel_force (adcl adch : Nat) (s : State) (vcc : Int)
    (h : readVcc adcl adch = some vcc) :
    sendBattLevel true adcl adch s =
      some ({ s with lastBattery := vcc, transmission_occured := true },
        [Event.voltage ((vcc : ℚ) / 1000), Event.batteryLevel (batteryPercent vcc)]) := by
  have hne := readVcc_ne_neg_one adcl adch vcc h
  simp [sendBattLevel, h, hne]

theorem sendBattLevel_noforce (adcl adch : Nat) (s : State) (vcc : Int)
    (h : readVcc adcl adch = some vcc) :
    sendBattLevel false adcl adch s =
      if vcc ≠ s.lastBattery then
        some ({ s with lastBattery := vcc, transmission_occured := true },
          [Event.voltage ((vcc : ℚ) / 1000), Event.batteryLevel (batteryPercent vcc)])
      else some (s, []) := by
  simp [sendBattLevel, h]

theorem txDecision_iff (force : Bool) (s : State) (d : si7021_thc) :
    txDecision force s d = true ↔
      (force = true ∨
        TEMP_TRANSMIT_THRESHOLD ≤ diffTemp s d ∨
        (∃ a, diffHum s d = some a ∧ HUMI_TRANSMIT_THRESHOLD ≤ a) ∨
        diffHum s d = none) := by
  unfold txDecision
  cases hd : diffHum s d with
  | none => simp [isnan, geF]
  | some a =>
    by_cases h1 : TEMP_TRANSMIT_THRESHOLD ≤ diffTemp s d <;>
    by_cases h2 : HUMI_TRANSMIT_THRESHOLD ≤ a <;>
    simp [isnan, geF, h1, h2]

theorem sendMeasurements_of_not_tx (force : Bool) (i : Input) (s : State)
    (h : txDecision force s i.data = false) :
    sendMeasurements force i s = some ({ s with raHum := raHumAfter s i.data }, []) := by
  simp [sendMeasurements, h]

theorem sendMeasurements_of_tx_low (force : Bool) (i : Input) (s : State)
    (h : txDecision force s i.data = true) (hb : s.sendBattery ≤ 60) :
    sendMeasurements force i s =
      some ({ s with raHum := raHumAfter s i.data
                     measureCount := 0
                     lastTemperature := (i.data.celsiusHundredths : ℚ) / 100
                     lastHumidity := toInt16 i.data.humidityPercent
                     transmission_occured := true },
        [Event.temperature ((i.data.celsiusHundredths : ℚ) / 100),
          Event.humidity (toInt16 i.data.humidityPercent)]) := by
  have : ¬ (60 < s.sendBattery) := by omega
  simp [sendMeasurements, h, this]

theorem sendMeasurements_of_tx_high (force : Bool) (i : Input) (s : State) (vcc : Int)
    (h : txDecision force s i.data = true) (hb : 60 < s.sendBattery)
    (hv : readVcc i.adcl i.adch = some vcc) :
    sendMeasurements force i s =
      some ({ s with raHum := raHumAfter s i.data
                     measureCount := 0
                     lastTemperature := (i.data.celsiusHundredths : ℚ) / 100
                     lastHumidity := toInt16 i.data.humidityPercent
                     transmission_occured := true
                     lastBattery := vcc
                     sendBattery := 0 },
        [Event.temperature ((i.data.celsiusHundredths : ℚ) / 100),
          Event.humidity (toInt16 i.data.humidityPercent),
          Event.voltage ((vcc : ℚ) / 1000), Event.batteryLevel (batteryPercent vcc)]) := by
  simp [sendMeasurements, h, hb, sendBattLevel_force _ _ _ vcc hv]


/-! ## Facts about rounding -/

/-- Rounding to the nearest integer moves a value by at most one half. -/
theorem roundHalfEven_error (x : ℚ) : |((roundHalfEven x : Int) : ℚ) - x| ≤ 1 / 2 := by
  have h0 : ((Int.floor x : Int) : ℚ) ≤ x := Int.floor_le x
  have h1 : x < ((Int.floor x : Int) : ℚ) + 1 := Int.lt_floor_add_one x
  unfold roundHalfEven
  simp only
  split_ifs with ha hb hc
  · rw [abs_le]; constructor <;> linarith
  · rw [abs_le]; push_cast; constructor <;> linarith
  · rw [abs_le]; constructor <;> linarith
  · rw [abs_le]; push_cast; constructor <;> linarith

/-- With enough fuel `log2Fuel` is the floor of the binary logarithm. -/
theorem log2Fuel_eq (fuel : Nat) : ∀ n, n ≤ fuel → log2Fuel fuel n = Nat.log 2 n := by
  induction fuel with
  | zero =>
    intro n hn
    have : n = 0 := by omega
    subst this
    simp [log2Fuel]
  | succ f ih =>
    intro n hn
    unfold log2Fuel
    by_cases h2 : 2 ≤ n
    · rw [if_pos h2, Nat.log_of_one_lt_of_le (by norm_num) h2, ih (n / 2) (by omega)]
    · rw [if_neg h2, Nat.log_of_lt (by omega)]

/-- With enough fuel `clog2Fuel` is the ceiling of the binary logarithm. -/
theorem clog2Fuel_eq (fuel : Nat) : ∀ n, n ≤ fuel → clog2Fuel fuel n = Nat.clog 2 n := by
  induction fuel with
  | zero =>
    intro n hn
    have : n = 0 := by omega
    subst this
    simp [clog2Fuel]
  | succ f ih =>
    intro n hn
    unfold clog2Fuel
    by_cases h2 : 2 ≤ n
    · have hn1 : n + 2 - 1 = n + 1 := by omega
      rw [if_pos h2, Nat.clog_of_two_le (by norm_num) h2, hn1, ih ((n + 1) / 2) (by omega)]
    · rw [if_neg h2, Nat.clog_of_right_le_one (by omega)]

/-- The exponent computed by `floorLog2` is the integer logarithm to base 2. -/
theorem floorLog2_eq (q : ℚ) : floorLog2 q = Int.log 2 q := by
  unfold floorLog2 Int.log
  rw [log2Fuel_eq _ _ (le_refl _), clog2Fuel_eq _ _ (le_refl _)]

/-- The exponent brackets a positive rational: `2 ^ e ≤ q < 2 ^ (e + 1)`. -/
theorem floorLog2_spec (q : ℚ) (hq : 0 < q) :
    (2 : ℚ) ^ floorLog2 q ≤ q ∧ q < (2 : ℚ) ^ (floorLog2 q + 1) := by
  rw [floorLog2_eq]
  have h1 : ((2 : ℕ) : ℚ) ^ Int.log 2 q ≤ q := Int.zpow_log_le_self (by norm_num) hq
  have h2 : q < ((2 : ℕ) : ℚ) ^ (Int.log 2 q + 1) :=
    Int.lt_zpow_succ_log_self (by norm_num) q
  rw [Nat.cast_ofNat] at h1 h2
  exact ⟨h1, h2⟩

/-- Rounding to a `float` has a relative error of at most `2^-24`. -/
theorem roundF32_error (q : ℚ) : |roundF32 q - q| ≤ |q| / 2 ^ 24 := by
  unfold roundF32
  by_cases hq : q = 0
  · simp [hq]
  · rw [if_neg hq]
    simp only [floorLog2_eq]
    have hpos : (0 : ℚ) < |q| := abs_pos.mpr hq
    have hlog : ((2 : ℕ) : ℚ) ^ Int.log 2 |q| ≤ |q| :=
      Int.zpow_log_le_self (by norm_num) hpos
    rw [Nat.cast_ofNat] at hlog
    have hulp : (0 : ℚ) < (2 : ℚ) ^ (Int.log 2 |q| - 23) := zpow_pos (by norm_num) _
    have hulp_le : (2 : ℚ) ^ (Int.log 2 |q| - 23) ≤ |q| / 2 ^ 23 := by
      rw [zpow_sub₀ (by norm_num : (2 : ℚ) ≠ 0)]
      have : (2 : ℚ) ^ (23 : ℤ) = 2 ^ 23 := by norm_num
      rw [this]
      exact div_le_div_of_nonneg_right hlog (by norm_num)
    have hr := roundHalfEven_error (q / (2 : ℚ) ^ (Int.log 2 |q| - 23))
    have hne : (2 : ℚ) ^ (Int.log 2 |q| - 23) ≠ 0 := ne_of_gt hulp
    have heq : ((roundHalfEven (q / (2 : ℚ) ^ (Int.log 2 |q| - 23)) : Int) : ℚ) *
          (2 : ℚ) ^ (Int.log 2 |q| - 23) - q =
        (((roundHalfEven (q / (2 : ℚ) ^ (Int.log 2 |q| - 23)) : Int) : ℚ) -
          q / (2 : ℚ) ^ (Int.log 2 |q| - 23)) * (2 : ℚ) ^ (Int.log 2 |q| - 23) := by
      field_simp
    rw [heq, abs_mul, abs_of_pos hulp]
    calc |((roundHalfEven (q / (2 : ℚ) ^ (Int.log 2 |q| - 23)) : Int) : ℚ) -
            q / (2 : ℚ) ^ (Int.log 2 |q| - 23)| * (2 : ℚ) ^ (Int.log 2 |q| - 23)
        ≤ 1 / 2 * (2 : ℚ) ^ (Int.log 2 |q| - 23) :=
          mul_le_mul_of_nonneg_right hr (le_of_lt hulp)
      _ ≤ 1 / 2 * (|q| / 2 ^ 23) := by
          apply mul_le_mul_of_nonneg_left hulp_le (by norm_num)
      _ = |q| / 2 ^ 24 := by ring

/-- Zero is a `float`. -/
theorem roundF32_zero : roundF32 0 = 0 := by
  simp [roundF32]

/-- The `float` nearest to 0.3 is `5033165 / 2^24`, about 0.30000001. -/
theorem roundF32_three_tenths : roundF32 (3 / 10) = 5033165 / 16777216 := by
  decide!

/-- A decimal value of the 16 bit range is `n / 100` for an integer `n` of that
range. -/
theorem isHundredths_iff (q : ℚ) :
    isHundredths q ↔ ∃ n : Int, -32768 ≤ n ∧ n ≤ 32767 ∧ q = (n : ℚ) / 100 := by
  constructor
  · rintro ⟨hd, hlo, hhi⟩
    refine ⟨(q * 100).num, hlo, hhi, ?_⟩
    have h := Rat.coe_int_num_of_den_eq_one hd
    rw [h]
    ring
  · rintro ⟨n, hlo, hhi, rfl⟩
    have h : (n : ℚ) / 100 * 100 = (n : ℚ) := by ring
    unfold isHundredths
    rw [h]
    simp only [Rat.intCast_den, Rat.intCast_num]
    exact ⟨trivial, hlo, hhi⟩

/-- The temperature test of the sketch does not fire when the decimal value of
the sample differs from the decimal value of the last report by less than 0.3:
the two values are then at most 0.29 apart and the rounding errors are far
smaller than the remaining 0.01. -/
theorem diffTemp_lt_threshold (s : State) (d : si7021_thc)
    (h : |s.lastTemperature - (d.celsiusHundredths : ℚ) / 100| < 3 / 10) :
    diffTemp s d < TEMP_TRANSMIT_THRESHOLD := by
  unfold diffTemp TEMP_TRANSMIT_THRESHOLD
  rw [roundF32_three_tenths]
  split_ifs with hwf
  · obtain ⟨n, hlo, hhi, hn⟩ := (isHundredths_iff _).mp hwf
    rw [hn] at h ⊢
    have hdiff : |((n - d.celsiusHundredths : Int) : ℚ)| < 30 := by
      have : ((n - d.celsiusHundredths : Int) : ℚ) =
          ((n : ℚ) / 100 - (d.celsiusHundredths : ℚ) / 100) * 100 := by
        push_cast
        ring
      rw [this, abs_mul]
      have h100 : |(100 : ℚ)| = 100 := by norm_num
      rw [h100]
      linarith
    have hint : |n - d.celsiusHundredths| ≤ 29 := by
      have h30 : |n - d.celsiusHundredths| < 30 := by
        have := hdiff
        rw [← Int.cast_abs] at this
        exact_mod_cast this
      omega
    obtain ⟨hi1, hi2⟩ := abs_le.mp hint
    have hq1 : (-29 : ℚ) ≤ (n : ℚ) - (d.celsiusHundredths : ℚ) := by
      have : ((-29 : Int) : ℚ) ≤ ((n - d.celsiusHundredths : Int) : ℚ) := by exact_mod_cast hi1
      push_cast at this
      linarith
    have hq2 : (n : ℚ) - (d.celsiusHundredths : ℚ) ≤ 29 := by
      have : ((n - d.celsiusHundredths : Int) : ℚ) ≤ ((29 : Int) : ℚ) := by exact_mod_cast hi2
      push_cast at this
      linarith
    have hnq1 : (-32768 : ℚ) ≤ (n : ℚ) := by exact_mod_cast hlo
    have hnq2 : (n : ℚ) ≤ 32767 := by exact_mod_cast hhi
    have ea := abs_le.mp (roundF32_error ((n : ℚ) / 100))
    have eb := abs_le.mp (roundF32_error ((d.celsiusHundredths : ℚ) / 100))
    have han : |(n : ℚ) / 100| ≤ 328 := by
      rw [abs_le]; constructor <;> linarith
    have hbn : |(d.celsiusHundredths : ℚ) / 100| ≤ 329 := by
      rw [abs_le]; constructor <;> linarith
    have hy : |roundF32 ((n : ℚ) / 100) - roundF32 ((d.celsiusHundredths : ℚ) / 100)| ≤
        29 / 100 + 657 / 2 ^ 24 := by
      rw [abs_le]
      constructor <;> linarith [ea.1, ea.2, eb.1, eb.2]
    have hy0 : (0 : ℚ) ≤
        |roundF32 ((n : ℚ) / 100) - roundF32 ((d.celsiusHundredths : ℚ) / 100)| := abs_nonneg _
    have ec := abs_le.mp (roundF32_error
      |roundF32 ((n : ℚ) / 100) - roundF32 ((d.celsiusHundredths : ℚ) / 100)|)
    rw [abs_abs] at ec
    have : |roundF32 ((n : ℚ) / 100) - roundF32 ((d.celsiusHundredths : ℚ) / 100)| / 2 ^ 24 ≤
        (29 / 100 + 657 / 2 ^ 24) / 2 ^ 24 := by
      apply div_le_div_of_nonneg_right hy (by norm_num)
    norm_num at this hy ec ⊢
    linarith [ec.2]
  · calc |s.lastTemperature - (d.celsiusHundredths : ℚ) / 100| < 3 / 10 := h
      _ < 5033165 / 16777216 := by norm_num

/-! ## The transmission decision -/

/-- The average of a window of capacity `AVERAGES` that was cleared and then
given one value is that value. -/
theorem getAverage_clear_addValue (v : ℚ) :
    (((RunningAverage.create AVERAGES).clear).addValue v).getAverage = some v := by
  simp [RunningAverage.create, RunningAverage.clear, RunningAverage.addValue,
    RunningAverage.getAverage, AVERAGES]

/-- C2: with `lastHumidity` at its initial sentinel -100 and a freshly cleared
smoothing window, the first call `sendMeasurements(false)` transmits for every
sample, whatever its temperature and its (non-negative) humidity; the value of
`lastTemperature` does not matter. -/
theorem first_call_transmits (i : Input) (s : State)
    (hH : s.lastHumidity = -100)
    (hW : s.raHum = (RunningAverage.create AVERAGES).clear)
    (hB : s.sendBattery = 0) :
    ∃ s' sent, sendMeasurements false i s = some (s', sent) ∧ transmits sent = true := by
  have htx : txDecision false s i.data = true := by
    rw [txDecision_iff]
    refine Or.inr (Or.inr (Or.inl ⟨|(s.lastHumidity : ℚ) - (i.data.humidityPercent : ℚ)|, ?_, ?_⟩))
    · simp [diffHum, raHumAfter, hW, getAverage_clear_addValue]
    · rw [hH]
      have h0 : (0 : ℚ) ≤ (i.data.humidityPercent : ℚ) := Nat.cast_nonneg _
      have : (((-100 : Int) : ℚ) - (i.data.humidityPercent : ℚ)) ≤ -100 := by
        push_cast
        linarith
      rw [abs_of_nonpos (by linarith)]
      unfold HUMI_TRANSMIT_THRESHOLD
      rw [roundF32_three_tenths]
      have hthr : (5033165 / 16777216 : ℚ) ≤ 1 := by norm_num
      linarith
  refine ⟨_, _, sendMeasurements_of_tx_low false i s htx (by omega), ?_⟩
  simp [transmits]

/-- Witness for C2: the state in which `setup` makes the first call. -/
theorem first_call_transmits_witness :
    ∃ s' sent, sendMeasurements false ⟨⟨2150, 47⟩, 194, 1⟩
        { initState with raHum := initState.raHum.clear } = some (s', sent) ∧
      transmits sent = true :=
  first_call_transmits ⟨⟨2150, 47⟩, 194, 1⟩
    { initState with raHum := initState.raHum.clear } rfl rfl rfl


/-- C3, as stated, fails.  A node that reported 20.00 degrees and 50 percent in
`setup` samples 20.20 degrees in the first wake cycle (no report) and 20.40
degrees in the second.  The two consecutive samples differ by 0.2 degrees, the
smoothed humidity average is 50 in both cycles and the second cycle is not
forced, yet the second cycle transmits and changes `lastTemperature`, because
the comparison is with the last reported temperature. -/
theorem threshold_consecutive_counterexample :
    setup ⟨⟨2000, 50⟩, 194, 1⟩ =
      some ({ measureCount := 0, sendBattery := 0, transmission_occured := true,
              lastTemperature := 20, lastHumidity := 50, lastBattery := 2500,
              raHum := { size := 2, values := [50] } },
        [Event.temperature 20, Event.humidity 50, Event.voltage (5 / 2),
          Event.batteryLevel 42]) ∧
    loop ⟨⟨2020, 50⟩, 194, 1⟩
        { measureCount := 0, sendBattery := 0, transmission_occured := true,
          lastTemperature := 20, lastHumidity := 50, lastBattery := 2500,
          raHum := { size := 2, values := [50] } } =
      some ({ measureCount := 1, sendBattery := 1, transmission_occured := false,
              lastTemperature := 20, lastHumidity := 50, lastBattery := 2500,
              raHum := { size := 2, values := [50, 50] } },
        [Event.sleep 60000]) ∧
    loop ⟨⟨2040, 50⟩, 194, 1⟩
        { measureCount := 1, sendBattery := 1, transmission_occured := false,
          lastTemperature := 20, lastHumidity := 50, lastBattery := 2500,
          raHum := { size := 2, values := [50, 50] } } =
      some ({ measureCount := 0, sendBattery := 2, transmission_occured := true,
              lastTemperature := 102 / 5, lastHumidity := 50, lastBattery := 2500,
              raHum := { size := 2, values := [50, 50] } },
        [Event.temperature (102 / 5), Event.humidity 50, Event.wait 300,
          Event.sleep 60000]) ∧
    |((2020 : Int) : ℚ) / 100 - ((2040 : Int) : ℚ) / 100| < 3 / 10 ∧
    RunningAverage.getAverage { size := 2, values := [50, 50] } = some 50 ∧
    forceTransmit
        { measureCount := 1, sendBattery := 1, transmission_occured := false,
          lastTemperature := 20, lastHumidity := 50, lastBattery := 2500,
          raHum := { size := 2, values := [50, 50] } } = false ∧
    transmits [Event.temperature (102 / 5), Event.humidity 50, Event.wait 300,
      Event.sleep 60000] = true ∧
    (102 / 5 : ℚ) ≠ 20 := by
  decide!

/-- C3, amended: when the sampled temperature differs from `lastTemperature`
(the last reported temperature) by less than 0.3 and the smoothed humidity
average, taken after the sample was added, differs from `lastHumidity` (the
last reported humidity) by less than 0.3, a call `sendMeasurements(false)`
emits nothing and leaves `lastTemperature`, `lastHumidity` and `lastBattery`
unchanged; so does a wake cycle `loop` whose force flag is not set. -/
theorem no_transmission_below_thresholds (i : Input) (s : State) (avg : ℚ)
    (hT : |s.lastTemperature - (i.data.celsiusHundredths : ℚ) / 100| < 3 / 10)
    (hA : (s.raHum.addValue (i.data.humidityPercent : ℚ)).getAverage = some avg)
    (hH : |(s.lastHumidity : ℚ) - avg| < 3 / 10) :
    (∃ s', sendMeasurements false i s = some (s', []) ∧
      s'.lastTemperature = s.lastTemperature ∧ s'.lastHumidity = s.lastHumidity ∧
      s'.lastBattery = s.lastBattery) ∧
    (forceTransmit s = false →
      ∃ s', loop i s = some (s', [Event.sleep MEASURE_INTERVAL]) ∧
        s'.lastTemperature = s.lastTemperature ∧ s'.lastHumidity = s.lastHumidity ∧
        s'.lastBattery = s.lastBattery) := by
  have hno : ∀ t : State, t.lastTemperature = s.lastTemperature →
      t.lastHumidity = s.lastHumidity → t.raHum = s.raHum →
      txDecision false t i.data = false := by
    intro t h1 h2 h3
    have hthr : (3 / 10 : ℚ) < HUMI_TRANSMIT_THRESHOLD := by
      unfold HUMI_TRANSMIT_THRESHOLD
      rw [roundF32_three_tenths]
      norm_num
    rw [Bool.eq_false_iff, Ne, txDecision_iff]
    simp only [diffHum, raHumAfter, h2, h3, hA, Option.map_some']
    rintro (h | h | ⟨a, ha, h⟩ | h)
    · exact Bool.noConfusion h
    · exact absurd h (not_le.mpr (diffTemp_lt_threshold t i.data (by rw [h1]; exact hT)))
    · cases ha
      exact absurd h (not_le.mpr (lt_trans hH hthr))
    · exact Option.noConfusion h
  constructor
  · exact ⟨_, sendMeasurements_of_not_tx false i s (hno s rfl rfl rfl), rfl, rfl, rfl⟩
  · intro hf
    have hstep := sendMeasurements_of_not_tx false i
      { s with measureCount := s.measureCount + 1
               sendBattery := s.sendBattery + 1
               transmission_occured := false } (hno _ rfl rfl rfl)
    refine ⟨{ s with measureCount := s.measureCount + 1
                     sendBattery := s.sendBattery + 1
                     transmission_occured := false
                     raHum := raHumAfter s i.data }, ?_, rfl, rfl, rfl⟩
    simp only [loop, hf]
    simp [hstep, raHumAfter]

/-- Witness for the amended C3: the node last reported 20.00 degrees and 50
percent and samples 20.20 degrees and 50 percent. -/
theorem no_transmission_below_thresholds_witness :
    (∃ s', sendMeasurements false ⟨⟨2020, 50⟩, 194, 1⟩
        { measureCount := 0, sendBattery := 0, transmission_occured := true,
          lastTemperature := 20, lastHumidity := 50, lastBattery := 2500,
          raHum := { size := 2, values := [50] } } = some (s', []) ∧
      s'.lastTemperature = 20 ∧ s'.lastHumidity = 50 ∧ s'.lastBattery = 2500) ∧
    (forceTransmit
        { measureCount := 0, sendBattery := 0, transmission_occured := true,
          lastTemperature := 20, lastHumidity := 50, lastBattery := 2500,
          raHum := { size := 2, values := [50] } } = false →
      ∃ s', loop ⟨⟨2020, 50⟩, 194, 1⟩
          { measureCount := 0, sendBattery := 0, transmission_occured := true,
            lastTemperature := 20, lastHumidity := 50, lastBattery := 2500,
            raHum := { size := 2, values := [50] } } =
          some (s', [Event.sleep MEASURE_INTERVAL]) ∧
        s'.lastTemperature = 20 ∧ s'.lastHumidity = 50 ∧ s'.lastBattery = 2500) :=
  no_transmission_below_thresholds ⟨⟨2020, 50⟩, 194, 1⟩
    { measureCount := 0, sendBattery := 0, transmission_occured := true,
      lastTemperature := 20, lastHumidity := 50, lastBattery := 2500,
      raHum := { size := 2, values := [50] } } 50 (by decide!) (by decide!) (by decide!)


/-! ## The wake cycle -/

/-- With a valid ADC reading `sendMeasurements` is defined. -/
theorem sendMeasurements_total (force : Bool) (i : Input) (s : State) (hadc : adcValid i) :
    ∃ r, sendMeasurements force i s = some r := by
  cases htx : txDecision force s i.data with
  | false => exact ⟨_, sendMeasurements_of_not_tx force i s htx⟩
  | true =>
    by_cases hb : 60 < s.sendBattery
    · exact ⟨_, sendMeasurements_of_tx_high force i s _ htx hb (readVcc_of_ne_zero _ _ hadc)⟩
    · exact ⟨_, sendMeasurements_of_tx_low force i s htx (not_lt.mp hb)⟩

/-- Effect of `sendMeasurements` on the cycle counter and on the radio: it
transmits exactly when the decision `tx` is true, then the counter is zero;
otherwise the counter is unchanged. -/
theorem sendMeasurements_props (force : Bool) (i : Input) (s s' : State)
    (sent : List Event) (h : sendMeasurements force i s = some (s', sent)) :
    transmits sent = txDecision force s i.data ∧
    (txDecision force s i.data = true → s'.measureCount = 0) ∧
    (txDecision force s i.data = false → s'.measureCount = s.measureCount) := by
  cases htx : txDecision force s i.data with
  | false =>
    rw [sendMeasurements_of_not_tx force i s htx] at h
    simp only [Option.some.injEq, Prod.mk.injEq] at h
    obtain ⟨rfl, rfl⟩ := h
    simp [transmits]
  | true =>
    by_cases hb : 60 < s.sendBattery
    · cases hv : readVcc i.adcl i.adch with
      | none => simp [sendMeasurements, htx, hb, sendBattLevel, hv] at h
      | some vcc =>
        rw [sendMeasurements_of_tx_high force i s vcc htx hb hv] at h
        simp only [Option.some.injEq, Prod.mk.injEq] at h
        obtain ⟨rfl, rfl⟩ := h
        simp [transmits]
    · rw [sendMeasurements_of_tx_low force i s htx (not_lt.mp hb)] at h
      simp only [Option.some.injEq, Prod.mk.injEq] at h
      obtain ⟨rfl, rfl⟩ := h
      simp [transmits]

/-- With a valid ADC reading a wake cycle is defined. -/
theorem loop_total (i : Input) (s : State) (hadc : adcValid i) :
    ∃ r, loop i s = some r := by
  unfold loop
  simp only
  obtain ⟨⟨s1, sent1⟩, h⟩ := sendMeasurements_total (forceTransmit s) i
    (if forceTransmit s = true then
      { s with measureCount := 0
               sendBattery := s.sendBattery + 1
               transmission_occured := false }
    else
      { s with measureCount := s.measureCount + 1
               sendBattery := s.sendBattery + 1
               transmission_occured := false }) hadc
  cases hf : forceTransmit s <;> simp [hf] at h <;> simp [h]

/-- What one wake cycle does to the cycle counter: a forced cycle transmits, a
transmitting cycle ends with the counter at zero, and a cycle that does not
transmit was not forced and has incremented the counter. -/
theorem loop_props (i : Input) (s s' : State) (sent : List Event)
    (h : loop i s = some (s', sent)) :
    (forceTransmit s = true → transmits sent = true) ∧
    (transmits sent = true → s'.measureCount = 0) ∧
    (transmits sent = false →
      s'.measureCount = s.measureCount + 1 ∧ forceTransmit s = false) := by
  unfold loop at h
  simp only at h
  split at h
  · exact Option.noConfusion h
  · rename_i s1 sent1 hsm
    have hp := sendMeasurements_props _ _ _ _ _ hsm
    simp only [Option.some.injEq, Prod.mk.injEq] at h
    obtain ⟨rfl, rfl⟩ := h
    have ht2 : transmits ((if s1.transmission_occured = true
        then sent1 ++ [Event.wait OTA_WAIT_PERIOD] else sent1) ++
          [Event.sleep MEASURE_INTERVAL]) = transmits sent1 := by
      split <;> simp [transmits]
    rw [ht2]
    cases hf : forceTransmit s with
    | true =>
      simp only [hf, if_true] at hp hsm
      have htx : txDecision true { s with measureCount := 0
                                          sendBattery := s.sendBattery + 1
                                          transmission_occured := false } i.data = true := by
        rw [txDecision_iff]
        exact Or.inl rfl
      refine ⟨fun _ => by rw [hp.1]; exact htx, fun _ => hp.2.1 htx, ?_⟩
      intro hn
      rw [hp.1, htx] at hn
      exact Bool.noConfusion hn
    | false =>
      simp only [hf] at hp hsm
      refine ⟨fun hc => Bool.noConfusion hc, ?_, ?_⟩
      · intro ht
        exact hp.2.1 (by rw [← hp.1]; exact ht)
      · intro hn
        have := hp.2.2 (by rw [← hp.1]; exact hn)
        exact ⟨by simpa using this, rfl⟩


/-- A run of wake cycles with valid ADC readings, started with the counter
below `FORCE_TRANSMIT_INTERVAL`, is defined, records one entry per cycle and
ends with the counter inside its range. -/
theorem run_invariant (is : List Input) :
    ∀ s : State, 0 ≤ s.measureCount → s.measureCount < FORCE_TRANSMIT_INTERVAL →
      (∀ i ∈ is, adcValid i) →
      ∃ s' trace, run is s = some (s', trace) ∧ trace.length = is.length ∧
        0 ≤ s'.measureCount ∧ s'.measureCount < FORCE_TRANSMIT_INTERVAL := by
  induction is with
  | nil =>
    intro s h0 h1 _
    exact ⟨s, [], rfl, rfl, h0, h1⟩
  | cons i rest ih =>
    intro s h0 h1 hv
    obtain ⟨⟨s1, sent1⟩, hl⟩ := loop_total i s (hv i (List.mem_cons_self _ _))
    have hp := loop_props i s s1 sent1 hl
    have hinv : 0 ≤ s1.measureCount ∧ s1.measureCount < FORCE_TRANSMIT_INTERVAL := by
      cases ht : transmits sent1 with
      | true =>
        rw [hp.2.1 ht]
        exact ⟨le_refl _, by decide⟩
      | false =>
        obtain ⟨hm, hf⟩ := hp.2.2 ht
        rw [hm]
        simp only [forceTransmit, decide_eq_false_iff_not, not_le] at hf
        exact ⟨by omega, hf⟩
    obtain ⟨s2, trace, hr, hlen, h2⟩ :=
      ih s1 hinv.1 hinv.2 (fun j hj => hv j (List.mem_cons_of_mem _ hj))
    exact ⟨s2, sent1 :: trace, by simp [run, hl, hr], by simp [hlen], h2⟩

/-- A run that is long enough for the counter to reach
`FORCE_TRANSMIT_INTERVAL` contains a transmitting cycle. -/
theorem run_transmits (is : List Input) :
    ∀ s : State, 0 ≤ s.measureCount → s.measureCount < FORCE_TRANSMIT_INTERVAL →
      (∀ i ∈ is, adcValid i) →
      FORCE_TRANSMIT_INTERVAL ≤ s.measureCount + is.length →
      ∃ s' trace, run is s = some (s', trace) ∧ ∃ sent ∈ trace, transmits sent = true := by
  induction is with
  | nil =>
    intro s _ h1 _ hlen
    simp only [List.length_nil, Nat.cast_zero, add_zero] at hlen
    omega
  | cons i rest ih =>
    intro s h0 h1 hv hlen
    obtain ⟨⟨s1, sent1⟩, hl⟩ := loop_total i s (hv i (List.mem_cons_self _ _))
    have hp := loop_props i s s1 sent1 hl
    have hvr : ∀ j ∈ rest, adcValid j := fun j hj => hv j (List.mem_cons_of_mem _ hj)
    cases ht : transmits sent1 with
    | true =>
      have hm := hp.2.1 ht
      obtain ⟨s2, trace, hr, _, _⟩ :=
        run_invariant rest s1 (by rw [hm]) (by rw [hm]; decide) hvr
      exact ⟨s2, sent1 :: trace, by simp [run, hl, hr], sent1, List.mem_cons_self _ _, ht⟩
    | false =>
      obtain ⟨hm, hf⟩ := hp.2.2 ht
      simp only [forceTransmit, decide_eq_false_iff_not, not_le] at hf
      have hlen' : FORCE_TRANSMIT_INTERVAL ≤ s1.measureCount + rest.length := by
        rw [hm]
        simp only [List.length_cons, Nat.cast_add, Nat.cast_one] at hlen
        omega
      obtain ⟨s2, trace, hr, sent, hmem, hs⟩ :=
        ih s1 (by omega) (by rw [hm]; exact hf) hvr hlen'
      exact ⟨s2, sent1 :: trace, by simp [run, hl, hr], sent, List.mem_cons_of_mem _ hmem, hs⟩

/-- In a run without any transmission the counter counts the cycles. -/
theorem run_silent_count (is : List Input) :
    ∀ (s s' : State) (trace : List (List Event)), run is s = some (s', trace) →
      (∀ sent ∈ trace, transmits sent = false) →
      s'.measureCount = s.measureCount + is.length := by
  induction is with
  | nil =>
    intro s s' trace h _
    simp only [run, Option.some.injEq, Prod.mk.injEq] at h
    rw [← h.1]
    simp
  | cons i rest ih =>
    intro s s' trace h hq
    simp only [run] at h
    split at h
    · exact Option.noConfusion h
    · rename_i s1 sent1 hl
      split at h
      · exact Option.noConfusion h
      · rename_i s2 tr hr
        simp only [Option.some.injEq, Prod.mk.injEq] at h
        obtain ⟨rfl, rfl⟩ := h
        have hp := loop_props i s s1 sent1 hl
        obtain ⟨hm, _⟩ := hp.2.2 (hq sent1 (List.mem_cons_self _ _))
        have := ih s1 s2 tr hr (fun e he => hq e (List.mem_cons_of_mem _ he))
        rw [this, hm]
        simp only [List.length_cons, Nat.cast_add, Nat.cast_one]
        omega

/-- With a valid ADC reading `setup` is defined and leaves the counter at zero. -/
theorem setup_spec (i : Input) (hadc : adcValid i) :
    ∃ s sent, setup i = some (s, sent) ∧ s.measureCount = 0 := by
  have hv := readVcc_of_ne_zero _ _ hadc
  obtain ⟨⟨s1, sent1⟩, h1⟩ := sendMeasurements_total false i
    { initState with raHum := initState.raHum.clear } hadc
  have hp := sendMeasurements_props _ _ _ _ _ h1
  have hm : s1.measureCount = 0 := by
    cases htx : txDecision false { initState with raHum := initState.raHum.clear } i.data with
    | true => exact hp.2.1 htx
    | false => exact (hp.2.2 htx).trans rfl
  have h2 := sendBattLevel_noforce i.adcl i.adch s1 _ hv
  by_cases hne : Int.tdiv 1125300 (adcResult i.adcl i.adch) ≠ s1.lastBattery
  · rw [if_pos hne] at h2
    unfold setup
    simp only
    rw [h1]
    simp only
    rw [h2]
    exact ⟨_, _, rfl, hm⟩
  · rw [if_neg hne] at h2
    unfold setup
    simp only
    rw [h1]
    simp only
    rw [h2]
    exact ⟨_, _, rfl, hm⟩

/-! ## The forced interval and the cycle counter -/

/-- C4: in an execution of wake cycles started from a state with
`0 <= measureCount < FORCE_TRANSMIT_INTERVAL`, or from the state left by
`setup`, every window of `FORCE_TRANSMIT_INTERVAL` consecutive cycles contains
a cycle that transmits temperature and humidity, whatever the samples; and a
cycle in which the incremented counter reaches `FORCE_TRANSMIT_INTERVAL`
transmits and ends with `measureCount = 0`. -/
theorem forced_interval :
    (∀ (s : State) (pre win : List Input),
      0 ≤ s.measureCount → s.measureCount < FORCE_TRANSMIT_INTERVAL →
      (∀ i ∈ pre ++ win, adcValid i) → (win.length : Int) = FORCE_TRANSMIT_INTERVAL →
      ∃ s1 t1 s2 t2, run pre s = some (s1, t1) ∧ run win s1 = some (s2, t2) ∧
        ∃ sent ∈ t2, transmits sent = true) ∧
    (∀ (i0 : Input) (pre win : List Input),
      (∀ i ∈ i0 :: (pre ++ win), adcValid i) → (win.length : Int) = FORCE_TRANSMIT_INTERVAL →
      ∃ s0 sent0 s1 t1 s2 t2, setup i0 = some (s0, sent0) ∧ run pre s0 = some (s1, t1) ∧
        run win s1 = some (s2, t2) ∧ ∃ sent ∈ t2, transmits sent = true) ∧
    (∀ (i : Input) (s : State), adcValid i →
      FORCE_TRANSMIT_INTERVAL ≤ s.measureCount + 1 →
      ∃ s' sent, loop i s = some (s', sent) ∧ transmits sent = true ∧
        s'.measureCount = 0) := by
  have part1 : ∀ (s : State) (pre win : List Input),
      0 ≤ s.measureCount → s.measureCount < FORCE_TRANSMIT_INTERVAL →
      (∀ i ∈ pre ++ win, adcValid i) → (win.length : Int) = FORCE_TRANSMIT_INTERVAL →
      ∃ s1 t1 s2 t2, run pre s = some (s1, t1) ∧ run win s1 = some (s2, t2) ∧
        ∃ sent ∈ t2, transmits sent = true := by
    intro s pre win h0 h1 hv hlen
    obtain ⟨s1, t1, hr1, _, h10, h11⟩ :=
      run_invariant pre s h0 h1 (fun i hi => hv i (List.mem_append_left _ hi))
    obtain ⟨s2, t2, hr2, hex⟩ :=
      run_transmits win s1 h10 h11 (fun i hi => hv i (List.mem_append_right _ hi))
        (by rw [hlen]; omega)
    exact ⟨s1, t1, s2, t2, hr1, hr2, hex⟩
  refine ⟨part1, ?_, ?_⟩
  · intro i0 pre win hv hlen
    obtain ⟨s0, sent0, hs, hm⟩ := setup_spec i0 (hv i0 (List.mem_cons_self _ _))
    obtain ⟨s1, t1, s2, t2, h⟩ :=
      part1 s0 pre win (by rw [hm]) (by rw [hm]; decide)
        (fun i hi => hv i (List.mem_cons_of_mem _ hi)) hlen
    exact ⟨s0, sent0, s1, t1, s2, t2, hs, h⟩
  · intro i s hadc hreach
    obtain ⟨⟨s', sent⟩, hl⟩ := loop_total i s hadc
    have hp := loop_props i s s' sent hl
    have hf : forceTransmit s = true := by
      simp only [forceTransmit, decide_eq_true_eq]
      exact hreach
    exact ⟨s', sent, hl, hp.1 hf, hp.2.1 (hp.1 hf)⟩

/-- Witness for C4: thirty cycles with a steady sample after `setup`, and the
cycle in which the counter goes from 29 to 30. -/
theorem forced_interval_witness :
    (∃ s1 t1 s2 t2,
      run [] { initState with lastTemperature := 20, lastHumidity := 50 } = some (s1, t1) ∧
      run (List.replicate 30 ⟨⟨2000, 50⟩, 194, 1⟩) s1 = some (s2, t2) ∧
      ∃ sent ∈ t2, transmits sent = true) ∧
    (∃ s0 sent0 s1 t1 s2 t2, setup ⟨⟨2000, 50⟩, 194, 1⟩ = some (s0, sent0) ∧
      run [⟨⟨2010, 50⟩, 194, 1⟩] s0 = some (s1, t1) ∧
      run (List.replicate 30 ⟨⟨2000, 50⟩, 194, 1⟩) s1 = some (s2, t2) ∧
      ∃ sent ∈ t2, transmits sent = true) ∧
    (∃ s' sent, loop ⟨⟨2000, 50⟩, 194, 1⟩
        { initState with measureCount := 29, lastTemperature := 20, lastHumidity := 50 } =
          some (s', sent) ∧
      transmits sent = true ∧ s'.measureCount = 0) :=
  ⟨forced_interval.1 { initState with lastTemperature := 20, lastHumidity := 50 } []
      (List.replicate 30 ⟨⟨2000, 50⟩, 194, 1⟩) (by decide) (by decide) (by decide!) (by decide),
    forced_interval.2.1 ⟨⟨2000, 50⟩, 194, 1⟩ [⟨⟨2010, 50⟩, 194, 1⟩]
      (List.replicate 30 ⟨⟨2000, 50⟩, 194, 1⟩) (by decide!) (by decide),
    forced_interval.2.2 ⟨⟨2000, 50⟩, 194, 1⟩
      { initState with measureCount := 29, lastTemperature := 20, lastHumidity := 50 }
      (by decide!) (by decide)⟩

/-- C5: every call of `sendMeasurements` that transmits leaves
`measureCount = 0`; and if a wake cycle transmits and the cycles after it do not,
the force flag of the next cycle is clear as long as fewer than
`FORCE_TRANSMIT_INTERVAL - 1` silent cycles have passed and is set after exactly
`FORCE_TRANSMIT_INTERVAL - 1` of them, that is in the cycle
`FORCE_TRANSMIT_INTERVAL` after the transmitting one. -/
theorem counter_resynchronization :
    (∀ (force : Bool) (i : Input) (s s' : State) (sent : List Event),
      sendMeasurements force i s = some (s', sent) → transmits sent = true →
      s'.measureCount = 0) ∧
    (∀ (i : Input) (s s1 : State) (sent : List Event) (is : List Input) (s2 : State)
      (trace : List (List Event)),
      loop i s = some (s1, sent) → transmits sent = true →
      run is s1 = some (s2, trace) → (∀ e ∈ trace, transmits e = false) →
      (is.length : Int) ≤ FORCE_TRANSMIT_INTERVAL - 1 →
      (forceTransmit s2 = true ↔ (is.length : Int) = FORCE_TRANSMIT_INTERVAL - 1)) := by
  constructor
  · intro force i s s' sent h ht
    have hp := sendMeasurements_props force i s s' sent h
    exact hp.2.1 (by rw [← hp.1]; exact ht)
  · intro i s s1 sent is s2 trace hl ht hr hq hlen
    have hm := (loop_props i s s1 sent hl).2.1 ht
    have hc := run_silent_count is s1 s2 trace hr hq
    rw [hm] at hc
    simp only [forceTransmit, decide_eq_true_eq, hc]
    unfold FORCE_TRANSMIT_INTERVAL at *
    omega

/-- Witness for C5: a node that reported 20.00 degrees and 50 percent samples
20.40 degrees (a threshold transmission) and then 29 times the same sample;
none of these 29 cycles transmits and the force flag is set for the thirtieth. -/
theorem counter_resynchronization_witness :
    (sendMeasurements false ⟨⟨2040, 50⟩, 194, 1⟩
        { measureCount := 7, sendBattery := 0, transmission_occured := false,
          lastTemperature := 20, lastHumidity := 50, lastBattery := 2500,
          raHum := { size := 2, values := [50] } } =
      some ({ measureCount := 0, sendBattery := 0, transmission_occured := true,
              lastTemperature := 102 / 5, lastHumidity := 50, lastBattery := 2500,
              raHum := { size := 2, values := [50, 50] } },
        [Event.temperature (102 / 5), Event.humidity 50]) ∧
      transmits [Event.temperature (102 / 5), Event.humidity 50] = true ∧
      State.measureCount
        { measureCount := 0, sendBattery := 0, transmission_occured := true,
          lastTemperature := 102 / 5, lastHumidity := 50, lastBattery := 2500,
          raHum := { size := 2, values := [50, 50] } } = 0) ∧
    (run (List.replicate 29 ⟨⟨2040, 50⟩, 194, 1⟩)
        { measureCount := 0, sendBattery := 8, transmission_occured := true,
          lastTemperature := 102 / 5, lastHumidity := 50, lastBattery := 2500,
          raHum := { size := 2, values := [50, 50] } } =
      some ({ measureCount := 29, sendBattery := 37, transmission_occured := false,
              lastTemperature := 102 / 5, lastHumidity := 50, lastBattery := 2500,
              raHum := { size := 2, values := [50, 50] } },
        List.replicate 29 [Event.sleep 60000]) ∧
      (forceTransmit
          { measureCount := 29, sendBattery := 37, transmission_occured := false,
            lastTemperature := 102 / 5, lastHumidity := 50, lastBattery := 2500,
            raHum := { size := 2, values := [50, 50] } } = true ↔
        ((List.replicate 29 (⟨⟨2040, 50⟩, 194, 1⟩ : Input)).length : Int) =
          FORCE_TRANSMIT_INTERVAL - 1)) :=
  ⟨⟨by decide!, by decide!, counter_resynchronization.1 false ⟨⟨2040, 50⟩, 194, 1⟩
      { measureCount := 7, sendBattery := 0, transmission_occured := false,
        lastTemperature := 20, lastHumidity := 50, lastBattery := 2500,
        raHum := { size := 2, values := [50] } }
      { measureCount := 0, sendBattery := 0, transmission_occured := true,
        lastTemperature := 102 / 5, lastHumidity := 50, lastBattery := 2500,
        raHum := { size := 2, values := [50, 50] } }
      [Event.temperature (102 / 5), Event.humidity 50] (by decide!) (by decide!)⟩,
    by decide!,
    counter_resynchronization.2 ⟨⟨2040, 50⟩, 194, 1⟩
      { measureCount := 7, sendBattery := 7, transmission_occured := false,
        lastTemperature := 20, lastHumidity := 50, lastBattery := 2500,
        raHum := { size := 2, values := [50] } }
      { measureCount := 0, sendBattery := 8, transmission_occured := true,
        lastTemperature := 102 / 5, lastHumidity := 50, lastBattery := 2500,
        raHum := { size := 2, values := [50, 50] } }
      [Event.temperature (102 / 5), Event.humidity 50, Event.wait 300, Event.sleep 60000]
      (List.replicate 29 ⟨⟨2040, 50⟩, 194, 1⟩)
      { measureCount := 29, sendBattery := 37, transmission_occured := false,
        lastTemperature := 102 / 5, lastHumidity := 50, lastBattery := 2500,
        raHum := { size := 2, values := [50, 50] } }
      (List.replicate 29 [Event.sleep 60000])
      (by decide!) (by decide!) (by decide!) (by decide!) (by decide!)⟩

/-- C6: at the end of `setup` and at the end of every later wake cycle, for
every sequence of hardware inputs, `0 <= measureCount < FORCE_TRANSMIT_INTERVAL`. -/
theorem measureCount_invariant (i0 : Input) (is : List Input)
    (hv : ∀ i ∈ i0 :: is, adcValid i) :
    ∃ s0 sent0 s trace, setup i0 = some (s0, sent0) ∧ run is s0 = some (s, trace) ∧
      0 ≤ s.measureCount ∧ s.measureCount < FORCE_TRANSMIT_INTERVAL := by
  obtain ⟨s0, sent0, hs, hm⟩ := setup_spec i0 (hv i0 (List.mem_cons_self _ _))
  obtain ⟨s, trace, hr, _, h0, h1⟩ :=
    run_invariant is s0 (by rw [hm]) (by rw [hm]; decide)
      (fun i hi => hv i (List.mem_cons_of_mem _ hi))
  exact ⟨s0, sent0, s, trace, hs, hr, h0, h1⟩

/-- Witness for C6: `setup` followed by three wake cycles. -/
theorem measureCount_invariant_witness :
    (∀ i ∈ [(⟨⟨2000, 50⟩, 194, 1⟩ : Input), ⟨⟨2020, 50⟩, 194, 1⟩, ⟨⟨2040, 51⟩, 194, 1⟩,
      ⟨⟨2040, 51⟩, 195, 1⟩], adcValid i) ∧
    ∃ s0 sent0 s trace, setup ⟨⟨2000, 50⟩, 194, 1⟩ = some (s0, sent0) ∧
      run [⟨⟨2020, 50⟩, 194, 1⟩, ⟨⟨2040, 51⟩, 194, 1⟩, ⟨⟨2040, 51⟩, 195, 1⟩] s0 =
        some (s, trace) ∧
      0 ≤ s.measureCount ∧ s.measureCount < FORCE_TRANSMIT_INTERVAL :=
  ⟨by decide!, measureCount_invariant ⟨⟨2000, 50⟩, 194, 1⟩
    [⟨⟨2020, 50⟩, 194, 1⟩, ⟨⟨2040, 51⟩, 194, 1⟩, ⟨⟨2040, 51⟩, 195, 1⟩] (by decide!)⟩

/-! ## The battery report -/

/-- Truncation toward zero of the exact quotient by 14 is the truncating integer
division by 14. -/
theorem truncToLong_div_fourteen (z : Int) : truncToLong ((z : ℚ) / 14) = Int.tdiv z 14 := by
  unfold truncToLong
  by_cases hz : 0 ≤ z
  · have hq : (0 : ℚ) ≤ (z : ℚ) / 14 := by positivity
    rw [if_pos hq, Int.tdiv_eq_ediv hz (by norm_num)]
    exact_mod_cast Rat.floor_intCast_div_natCast z 14
  · have hz' : z < 0 := not_le.mp hz
    have hq : ¬ (0 : ℚ) ≤ (z : ℚ) / 14 := by
      rw [not_le]
      have : (z : ℚ) < 0 := by exact_mod_cast hz'
      linarith
    rw [if_neg hq]
    obtain ⟨m, rfl⟩ : ∃ m : Int, z = -m := ⟨-z, by omega⟩
    have hm : 0 ≤ m := by omega
    rw [Int.neg_tdiv, Int.tdiv_eq_ediv hm (by norm_num)]
    have h1 : (((-m : Int) : ℚ) / 14) = -((m : ℚ) / 14) := by
      push_cast
      ring
    rw [h1, Int.ceil_neg]
    congr 1
    exact_mod_cast Rat.floor_intCast_div_natCast m 14

/-- C7: a call `sendBattLevel(false)` that reads `vcc` emits a voltage report and
a battery level report if and only if `vcc` differs from the stored
`lastBattery`; when they are equal it emits nothing and changes nothing.  After
the call a further non-forced call that reads the same value emits nothing. -/
theorem battery_equality_suppression (adcl adch : Nat) (s : State) (vcc : Int)
    (hv : readVcc adcl adch = some vcc) :
    ∃ s' sent, sendBattLevel false adcl adch s = some (s', sent) ∧
      (reportsBattery sent = true ↔ vcc ≠ s.lastBattery) ∧
      (vcc = s.lastBattery →
        sent = [] ∧ s'.lastBattery = s.lastBattery ∧
        s'.transmission_occured = s.transmission_occured ∧ s' = s) ∧
      (∀ adcl2 adch2 : Nat, readVcc adcl2 adch2 = some vcc →
        sendBattLevel false adcl2 adch2 s' = some (s', [])) := by
  by_cases hne : vcc ≠ s.lastBattery
  · refine ⟨_, _, (sendBattLevel_noforce adcl adch s vcc hv).trans (if_pos hne), ?_, ?_, ?_⟩
    · simp [reportsBattery, hne]
    · intro h
      exact absurd h hne
    · intro adcl2 adch2 hv2
      rw [sendBattLevel_noforce adcl2 adch2 _ vcc hv2]
      simp
  · have heq : vcc = s.lastBattery := not_not.mp hne
    refine ⟨_, _, (sendBattLevel_noforce adcl adch s vcc hv).trans (if_neg hne), ?_, ?_, ?_⟩
    · simp [reportsBattery, heq]
    · intro _
      exact ⟨rfl, rfl, rfl, rfl⟩
    · intro adcl2 adch2 hv2
      rw [sendBattLevel_noforce adcl2 adch2 _ vcc hv2]
      simp [heq]

/-- Witness for C7: the ADC reads 450, that is 2500 mV, and 2500 mV is stored. -/
theorem battery_equality_suppression_witness :
    readVcc 194 1 = some 2500 ∧
    ∃ s' sent, sendBattLevel false 194 1 { initState with lastBattery := 2500 } =
        some (s', sent) ∧
      (reportsBattery sent = true ↔ (2500 : Int) ≠ 2500) ∧
      ((2500 : Int) = 2500 →
        sent = [] ∧ s'.lastBattery = 2500 ∧
        s'.transmission_occured = false ∧ s' = { initState with lastBattery := 2500 }) ∧
      (∀ adcl2 adch2 : Nat, readVcc adcl2 adch2 = some 2500 →
        sendBattLevel false adcl2 adch2 s' = some (s', [])) :=
  ⟨by decide!, battery_equality_suppression 194 1 { initState with lastBattery := 2500 } 2500
    (by decide!)⟩

/-- C8: a forced call `sendBattLevel(true)` always emits: whatever `lastBattery`
held before, the reading `vcc` differs from the sentinel -1 that forcing stores,
the voltage and the battery level are emitted, `lastBattery` becomes `vcc` and
`transmission_occured` becomes true. -/
theorem forced_battery_report (adcl adch : Nat) (s : State)
    (hadc : adcResult adcl adch ≠ 0) :
    ∃ vcc s' sent, readVcc adcl adch = some vcc ∧ vcc ≠ -1 ∧
      sendBattLevel true adcl adch s = some (s', sent) ∧
      sent = [Event.voltage ((vcc : ℚ) / 1000), Event.batteryLevel (batteryPercent vcc)] ∧
      reportsBattery sent = true ∧
      s'.lastBattery = vcc ∧ s'.transmission_occured = true := by
  have hv := readVcc_of_ne_zero adcl adch hadc
  exact ⟨_, _, _, hv, readVcc_ne_neg_one adcl adch _ hv, sendBattLevel_force adcl adch s _ hv,
    rfl, by simp [reportsBattery], rfl, rfl⟩

/-- Witness for C8: the ADC reads 450 (2500 mV) and 2500 mV is already stored. -/
theorem forced_battery_report_witness :
    adcResult 194 1 ≠ 0 ∧
    ∃ vcc s' sent, readVcc 194 1 = some vcc ∧ vcc ≠ -1 ∧
      sendBattLevel true 194 1 { initState with lastBattery := 2500 } = some (s', sent) ∧
      sent = [Event.voltage ((vcc : ℚ) / 1000), Event.batteryLevel (batteryPercent vcc)] ∧
      reportsBattery sent = true ∧
      s'.lastBattery = vcc ∧ s'.transmission_occured = true :=
  ⟨by decide!, forced_battery_report 194 1 { initState with lastBattery := 2500 } (by decide!)⟩

/-- C9: whenever `sendBattLevel` emits, the battery level it passes to
`sendBatteryLevel` is `(vcc - 1900) / 14` truncated toward zero, where `vcc` is
the millivolt reading; 2500 mV gives 42 and 1900 mV gives 0. -/
theorem percent_mapping :
    (∀ (force : Bool) (adcl adch : Nat) (s s' : State) (sent : List Event) (vcc : Int),
      readVcc adcl adch = some vcc → sendBattLevel force adcl adch s = some (s', sent) →
      sent ≠ [] →
      sent = [Event.voltage ((vcc : ℚ) / 1000),
        Event.batteryLevel (Int.tdiv (vcc - 1900) 14)]) ∧
    (∀ vcc : Int, batteryPercent vcc = Int.tdiv (vcc - 1900) 14) ∧
    batteryPercent 2500 = 42 ∧ batteryPercent 1900 = 0 := by
  have hbp : ∀ vcc : Int, batteryPercent vcc = Int.tdiv (vcc - 1900) 14 := by
    intro vcc
    unfold batteryPercent
    exact truncToLong_div_fourteen (vcc - 1900)
  refine ⟨?_, hbp, by rw [hbp]; decide, by rw [hbp]; decide⟩
  intro force adcl adch s s' sent vcc hv h hne
  cases force with
  | true =>
    rw [sendBattLevel_force adcl adch s vcc hv] at h
    simp only [Option.some.injEq, Prod.mk.injEq] at h
    rw [← h.2, hbp]
  | false =>
    rw [sendBattLevel_noforce adcl adch s vcc hv] at h
    split at h
    · simp only [Option.some.injEq, Prod.mk.injEq] at h
      rw [← h.2, hbp]
    · simp only [Option.some.injEq, Prod.mk.injEq] at h
      exact absurd h.2.symm hne

/-- Witness for C9: the ADC reads 450, that is 2500 mV, and the stored value is
the initial sentinel. -/
theorem percent_mapping_witness :
    readVcc 194 1 = some 2500 ∧
    sendBattLevel false 194 1 initState =
      some ({ initState with lastBattery := 2500, transmission_occured := true },
        [Event.voltage (5 / 2), Event.batteryLevel 42]) ∧
    [Event.voltage (5 / 2), Event.batteryLevel 42] =
      [Event.voltage (((2500 : Int) : ℚ) / 1000),
        Event.batteryLevel (Int.tdiv ((2500 : Int) - 1900) 14)] :=
  ⟨by decide!, by decide!,
    percent_mapping.1 false 194 1 initState
      { initState with lastBattery := 2500, transmission_occured := true }
      [Event.voltage (5 / 2), Event.batteryLevel 42] 2500 (by decide!) (by decide!)
      (by decide)⟩

/-! ## The opportunistic battery report -/

/-- C10, as stated, fails.  After `setup` and 61 wake cycles with a steady sample
the battery counter is 61.  In the next cycle `sendMeasurements(false)` runs
with the counter at 62, which is greater than 60, but the sample is steady, so
nothing is transmitted: no battery report is made and the counter is not
reset. -/
theorem opportunistic_report_counterexample :
    setup ⟨⟨2000, 50⟩, 194, 1⟩ =
      some ({ measureCount := 0, sendBattery := 0, transmission_occured := true,
              lastTemperature := 20, lastHumidity := 50, lastBattery := 2500,
              raHum := { size := 2, values := [50] } },
        [Event.temperature 20, Event.humidity 50, Event.voltage (5 / 2),
          Event.batteryLevel 42]) ∧
    (run (List.replicate 61 ⟨⟨2000, 50⟩, 194, 1⟩)
        { measureCount := 0, sendBattery := 0, transmission_occured := true,
          lastTemperature := 20, lastHumidity := 50, lastBattery := 2500,
          raHum := { size := 2, values := [50] } }).map Prod.fst =
      some { measureCount := 1, sendBattery := 61, transmission_occured := false,
             lastTemperature := 20, lastHumidity := 50, lastBattery := 2500,
             raHum := { size := 2, values := [50, 50] } } ∧
    sendMeasurements false ⟨⟨2000, 50⟩, 194, 1⟩
        { measureCount := 2, sendBattery := 62, transmission_occured := false,
          lastTemperature := 20, lastHumidity := 50, lastBattery := 2500,
          raHum := { size := 2, values := [50, 50] } } =
      some ({ measureCount := 2, sendBattery := 62, transmission_occured := false,
              lastTemperature := 20, lastHumidity := 50, lastBattery := 2500,
              raHum := { size := 2, values := [50, 50] } }, []) ∧
    loop ⟨⟨2000, 50⟩, 194, 1⟩
        { measureCount := 1, sendBattery := 61, transmission_occured := false,
          lastTemperature := 20, lastHumidity := 50, lastBattery := 2500,
          raHum := { size := 2, values := [50, 50] } } =
      some ({ measureCount := 2, sendBattery := 62, transmission_occured := false,
              lastTemperature := 20, lastHumidity := 50, lastBattery := 2500,
              raHum := { size := 2, values := [50, 50] } }, [Event.sleep 60000]) ∧
    (60 : Int) < 62 ∧
    reportsBattery ([] : List Event) = false := by
  decide!

/-- C10, amended: a call of `sendMeasurements` that transmits while the battery
counter `sendBattery` is greater than 60 makes a forced battery report
(`sendBattLevel(true)`, run right after the temperature and humidity reports)
and then resets `sendBattery` to 0; a call that does not transmit, or that runs
with `sendBattery <= 60`, makes no battery report and leaves `sendBattery` and
`lastBattery` unchanged. -/
theorem opportunistic_battery_report (force : Bool) (i : Input) (s : State)
    (hadc : adcValid i) :
    ∃ s' sent, sendMeasurements force i s = some (s', sent) ∧
      (transmits sent = true → 60 < s.sendBattery →
        ∃ sB sentB,
          sendBattLevel true i.adcl i.adch
            { s with raHum := raHumAfter s i.data
                     measureCount := 0
                     lastTemperature := (i.data.celsiusHundredths : ℚ) / 100
                     lastHumidity := toInt16 i.data.humidityPercent
                     transmission_occured := true } = some (sB, sentB) ∧
          reportsBattery sentB = true ∧
          sent = [Event.temperature ((i.data.celsiusHundredths : ℚ) / 100),
            Event.humidity (toInt16 i.data.humidityPercent)] ++ sentB ∧
          s' = { sB with sendBattery := 0 }) ∧
      (¬ (transmits sent = true ∧ 60 < s.sendBattery) →
        reportsBattery sent = false ∧ s'.sendBattery = s.sendBattery ∧
        s'.lastBattery = s.lastBattery) := by
  have hv := readVcc_of_ne_zero _ _ hadc
  cases htx : txDecision force s i.data with
  | false =>
    refine ⟨_, _, sendMeasurements_of_not_tx force i s htx, ?_, ?_⟩
    · intro ht
      simp [transmits] at ht
    · intro _
      exact ⟨by simp [reportsBattery], rfl, rfl⟩
  | true =>
    by_cases hb : 60 < s.sendBattery
    · refine ⟨_, _, sendMeasurements_of_tx_high force i s _ htx hb hv, ?_, ?_⟩
      · intro _ _
        exact ⟨_, _, sendBattLevel_force _ _ _ _ hv, by simp [reportsBattery], rfl, rfl⟩
      · intro hn
        exact absurd ⟨by simp [transmits], hb⟩ hn
    · refine ⟨_, _, sendMeasurements_of_tx_low force i s htx (not_lt.mp hb), ?_, ?_⟩
      · intro _ hb'
        exact absurd hb' hb
      · intro _
        exact ⟨by simp [reportsBattery], rfl, rfl⟩

/-- Witness for the amended C10: a threshold transmission with the battery
counter at 61. -/
theorem opportunistic_battery_report_witness :
    adcValid ⟨⟨2040, 50⟩, 194, 1⟩ ∧
    ∃ s' sent, sendMeasurements false ⟨⟨2040, 50⟩, 194, 1⟩
        { measureCount := 1, sendBattery := 61, transmission_occured := false,
          lastTemperature := 20, lastHumidity := 50, lastBattery := 2500,
          raHum := { size := 2, values := [50, 50] } } = some (s', sent) ∧
      (transmits sent = true → (60 : Int) < 61 →
        ∃ sB sentB,
          sendBattLevel true 194 1
            { measureCount := 0, sendBattery := 61, transmission_occured := true,
              lastTemperature := ((2040 : Int) : ℚ) / 100,
              lastHumidity := toInt16 50, lastBattery := 2500,
              raHum := raHumAfter
                { measureCount := 1, sendBattery := 61, transmission_occured := false,
                  lastTemperature := 20, lastHumidity := 50, lastBattery := 2500,
                  raHum := { size := 2, values := [50, 50] } } ⟨2040, 50⟩ } =
            some (sB, sentB) ∧
          reportsBattery sentB = true ∧
          sent = [Event.temperature (((2040 : Int) : ℚ) / 100),
            Event.humidity (toInt16 50)] ++ sentB ∧
          s' = { sB with sendBattery := 0 }) ∧
      (¬ (transmits sent = true ∧ (60 : Int) < 61) →
        reportsBattery sent = false ∧ s'.sendBattery = 61 ∧ s'.lastBattery = 2500) :=
  ⟨by decide!, opportunistic_battery_report false ⟨⟨2040, 50⟩, 194, 1⟩
    { measureCount := 1, sendBattery := 61, transmission_occured := false,
      lastTemperature := 20, lastHumidity := 50, lastBattery := 2500,
      raHum := { size := 2, values := [50, 50] } } (by decide!)⟩

/-! ## The three outcomes of a call and of a wake cycle -/

/-- A defined call of `sendMeasurements` has one of three outcomes: nothing is
sent; temperature and humidity are sent; temperature, humidity and a forced
battery report are sent. -/
theorem sendMeasurements_cases (force : Bool) (i : Input) (s s' : State)
    (sent : List Event) (h : sendMeasurements force i s = some (s', sent)) :
    (txDecision force s i.data = false ∧
      s' = { s with raHum := raHumAfter s i.data } ∧ sent = []) ∨
    (txDecision force s i.data = true ∧ s.sendBattery ≤ 60 ∧
      s' = { s with raHum := raHumAfter s i.data
                    measureCount := 0
                    lastTemperature := (i.data.celsiusHundredths : ℚ) / 100
                    lastHumidity := toInt16 i.data.humidityPercent
                    transmission_occured := true } ∧
      sent = [Event.temperature ((i.data.celsiusHundredths : ℚ) / 100),
        Event.humidity (toInt16 i.data.humidityPercent)]) ∨
    (txDecision force s i.data = true ∧ 60 < s.sendBattery ∧
      ∃ vcc, readVcc i.adcl i.adch = some vcc ∧
        s' = { s with raHum := raHumAfter s i.data
                      measureCount := 0
                      lastTemperature := (i.data.celsiusHundredths : ℚ) / 100
                      lastHumidity := toInt16 i.data.humidityPercent
                      transmission_occured := true
                      lastBattery := vcc
                      sendBattery := 0 } ∧
        sent = [Event.temperature ((i.data.celsiusHundredths : ℚ) / 100),
          Event.humidity (toInt16 i.data.humidityPercent),
          Event.voltage ((vcc : ℚ) / 1000), Event.batteryLevel (batteryPercent vcc)]) := by
  cases htx : txDecision force s i.data with
  | false =>
    rw [sendMeasurements_of_not_tx force i s htx] at h
    simp only [Option.some.injEq, Prod.mk.injEq] at h
    exact Or.inl ⟨rfl, h.1.symm, h.2.symm⟩
  | true =>
    by_cases hb : 60 < s.sendBattery
    · cases hv : readVcc i.adcl i.adch with
      | none => simp [sendMeasurements, htx, hb, sendBattLevel, hv] at h
      | some vcc =>
        rw [sendMeasurements_of_tx_high force i s vcc htx hb hv] at h
        simp only [Option.some.injEq, Prod.mk.injEq] at h
        exact Or.inr (Or.inr ⟨rfl, hb, vcc, rfl, h.1.symm, h.2.symm⟩)
    · rw [sendMeasurements_of_tx_low force i s htx (not_lt.mp hb)] at h
      simp only [Option.some.injEq, Prod.mk.injEq] at h
      exact Or.inr (Or.inl ⟨rfl, not_lt.mp hb, h.1.symm, h.2.symm⟩)

/-- A defined wake cycle has one of three outcomes: it only sleeps; it sends
temperature and humidity, waits and sleeps; it sends temperature, humidity and
a forced battery report, waits and sleeps.  The counters, the flag
`transmission_occured` and the capacity of the window change accordingly. -/
theorem loop_cases (i : Input) (s s' : State) (sent : List Event)
    (h : loop i s = some (s', sent)) :
    (sent = [Event.sleep MEASURE_INTERVAL] ∧ forceTransmit s = false ∧
      s'.measureCount = s.measureCount + 1 ∧ s'.sendBattery = s.sendBattery + 1 ∧
      s'.transmission_occured = false ∧ s'.lastBattery = s.lastBattery ∧
      s'.raHum.size = s.raHum.size) ∨
    (sent = [Event.temperature ((i.data.celsiusHundredths : ℚ) / 100),
        Event.humidity (toInt16 i.data.humidityPercent),
        Event.wait OTA_WAIT_PERIOD, Event.sleep MEASURE_INTERVAL] ∧
      s.sendBattery + 1 ≤ 60 ∧
      s'.measureCount = 0 ∧ s'.sendBattery = s.sendBattery + 1 ∧
      s'.transmission_occured = true ∧ s'.lastBattery = s.lastBattery ∧
      s'.raHum.size = s.raHum.size) ∨
    (∃ vcc, readVcc i.adcl i.adch = some vcc ∧
      sent = [Event.temperature ((i.data.celsiusHundredths : ℚ) / 100),
        Event.humidity (toInt16 i.data.humidityPercent),
        Event.voltage ((vcc : ℚ) / 1000), Event.batteryLevel (batteryPercent vcc),
        Event.wait OTA_WAIT_PERIOD, Event.sleep MEASURE_INTERVAL] ∧
      60 < s.sendBattery + 1 ∧
      s'.measureCount = 0 ∧ s'.sendBattery = 0 ∧
      s'.transmission_occured = true ∧ s'.lastBattery = vcc ∧
      s'.raHum.size = s.raHum.size) := by
  unfold loop at h
  simp only at h
  split at h
  · exact Option.noConfusion h
  · rename_i s1 sent1 hsm
    simp only [Option.some.injEq, Prod.mk.injEq] at h
    obtain ⟨rfl, rfl⟩ := h
    have hsize : ∀ t : State, (raHumAfter t i.data).size = t.raHum.size := fun _ => rfl
    cases hf : forceTransmit s with
    | true =>
      simp only [hf, if_true] at hsm
      have htx : txDecision true { s with measureCount := 0
                                          sendBattery := s.sendBattery + 1
                                          transmission_occured := false } i.data = true := by
        rw [txDecision_iff]
        exact Or.inl rfl
      rcases sendMeasurements_cases _ _ _ _ _ hsm with ⟨h1, _, _⟩ | ⟨_, hb, rfl, rfl⟩ |
        ⟨_, hb, vcc, hv, rfl, rfl⟩
      · rw [htx] at h1
        exact Bool.noConfusion h1
      · exact Or.inr (Or.inl ⟨by simp, hb, rfl, rfl, rfl, rfl, rfl⟩)
      · exact Or.inr (Or.inr ⟨vcc, hv, by simp, hb, rfl, rfl, rfl, rfl, rfl⟩)
    | false =>
      simp only [hf] at hsm
      rcases sendMeasurements_cases _ _ _ _ _ hsm with ⟨_, rfl, rfl⟩ | ⟨_, hb, rfl, rfl⟩ |
        ⟨_, hb, vcc, hv, rfl, rfl⟩
      · exact Or.inl ⟨by simp, rfl, rfl, rfl, rfl, rfl, rfl⟩
      · exact Or.inr (Or.inl ⟨by simp, hb, rfl, rfl, rfl, rfl, rfl⟩)
      · exact Or.inr (Or.inr ⟨vcc, hv, by simp, hb, rfl, rfl, rfl, rfl, rfl⟩)


/-- The state left by `setup`: both counters are zero and the window has
capacity `AVERAGES`. -/
theorem setup_counters (i : Input) (hadc : adcValid i) :
    ∃ s sent, setup i = some (s, sent) ∧ s.measureCount = 0 ∧ s.sendBattery = 0 ∧
      s.raHum.size = AVERAGES := by
  have hv := readVcc_of_ne_zero _ _ hadc
  obtain ⟨⟨s1, sent1⟩, h1⟩ := sendMeasurements_total false i
    { initState with raHum := initState.raHum.clear } hadc
  have hs1 : s1.measureCount = 0 ∧ s1.sendBattery = 0 ∧ s1.raHum.size = AVERAGES := by
    rcases sendMeasurements_cases _ _ _ _ _ h1 with ⟨_, rfl, _⟩ | ⟨_, _, rfl, _⟩ |
      ⟨_, hb, _⟩
    · exact ⟨rfl, rfl, rfl⟩
    · exact ⟨rfl, rfl, rfl⟩
    · exact absurd hb (by decide)
  have h2 := sendBattLevel_noforce i.adcl i.adch s1 _ hv
  by_cases hne : Int.tdiv 1125300 (adcResult i.adcl i.adch) ≠ s1.lastBattery
  · rw [if_pos hne] at h2
    unfold setup
    simp only
    rw [h1]
    simp only
    rw [h2]
    exact ⟨_, _, rfl, hs1⟩
  · rw [if_neg hne] at h2
    unfold setup
    simp only
    rw [h1]
    simp only
    rw [h2]
    exact ⟨_, _, rfl, hs1⟩

/-- The capacity of the smoothing window never changes during a run. -/
theorem run_size (is : List Input) :
    ∀ (s s' : State) (trace : List (List Event)), run is s = some (s', trace) →
      s'.raHum.size = s.raHum.size := by
  induction is with
  | nil =>
    intro s s' trace h
    simp only [run, Option.some.injEq, Prod.mk.injEq] at h
    rw [← h.1]
  | cons i rest ih =>
    intro s s' trace h
    simp only [run] at h
    split at h
    · exact Option.noConfusion h
    · rename_i s1 sent1 hl
      split at h
      · exact Option.noConfusion h
      · rename_i s2 tr hr
        simp only [Option.some.injEq, Prod.mk.injEq] at h
        obtain ⟨rfl, rfl⟩ := h
        have h1 : s1.raHum.size = s.raHum.size := by
          rcases loop_cases i s s1 sent1 hl with ⟨_, _, _, _, _, _, hz⟩ |
            ⟨_, _, _, _, _, _, hz⟩ | ⟨_, _, _, _, _, _, _, _, hz⟩ <;> exact hz
        rw [ih s1 s2 tr hr, h1]

/-- One wake cycle preserves the joint invariant of the two counters. -/
theorem loop_counters (i : Input) (s s' : State) (sent : List Event)
    (h : loop i s = some (s', sent))
    (h0 : 0 ≤ s.measureCount) (h1 : s.measureCount < FORCE_TRANSMIT_INTERVAL)
    (h2 : 0 ≤ s.sendBattery) (h3 : s.sendBattery ≤ 60 + s.measureCount) :
    0 ≤ s'.measureCount ∧ s'.measureCount < FORCE_TRANSMIT_INTERVAL ∧
    0 ≤ s'.sendBattery ∧ s'.sendBattery ≤ 60 + s'.measureCount := by
  unfold FORCE_TRANSMIT_INTERVAL at *
  rcases loop_cases i s s' sent h with ⟨_, hf, hm, hb, _⟩ | ⟨_, hle, hm, hb, _⟩ |
    ⟨_, _, _, _, hm, hb, _⟩
  · simp only [forceTransmit, FORCE_TRANSMIT_INTERVAL, decide_eq_false_iff_not, not_le] at hf
    omega
  · omega
  · omega

/-- A run with valid ADC readings, started inside the joint invariant of the two
counters, is defined and ends inside it. -/
theorem run_counters (is : List Input) :
    ∀ s : State, 0 ≤ s.measureCount → s.measureCount < FORCE_TRANSMIT_INTERVAL →
      0 ≤ s.sendBattery → s.sendBattery ≤ 60 + s.measureCount →
      (∀ i ∈ is, adcValid i) →
      ∃ s' trace, run is s = some (s', trace) ∧
        0 ≤ s'.measureCount ∧ s'.measureCount < FORCE_TRANSMIT_INTERVAL ∧
        0 ≤ s'.sendBattery ∧ s'.sendBattery ≤ 60 + s'.measureCount := by
  induction is with
  | nil =>
    intro s h0 h1 h2 h3 _
    exact ⟨s, [], rfl, h0, h1, h2, h3⟩
  | cons i rest ih =>
    intro s h0 h1 h2 h3 hv
    obtain ⟨⟨s1, sent1⟩, hl⟩ := loop_total i s (hv i (List.mem_cons_self _ _))
    obtain ⟨g0, g1, g2, g3⟩ := loop_counters i s s1 sent1 hl h0 h1 h2 h3
    obtain ⟨s2, trace, hr, hinv⟩ :=
      ih s1 g0 g1 g2 g3 (fun j hj => hv j (List.mem_cons_of_mem _ hj))
    exact ⟨s2, sent1 :: trace, by simp [run, hl, hr], hinv⟩

/-- In a run without any battery report the battery counter counts the cycles. -/
theorem run_unreported_count (is : List Input) :
    ∀ (s s' : State) (trace : List (List Event)), run is s = some (s', trace) →
      (∀ sent ∈ trace, reportsBattery sent = false) →
      s'.sendBattery = s.sendBattery + is.length := by
  induction is with
  | nil =>
    intro s s' trace h _
    simp only [run, Option.some.injEq, Prod.mk.injEq] at h
    rw [← h.1]
    simp
  | cons i rest ih =>
    intro s s' trace h hq
    simp only [run] at h
    split at h
    · exact Option.noConfusion h
    · rename_i s1 sent1 hl
      split at h
      · exact Option.noConfusion h
      · rename_i s2 tr hr
        simp only [Option.some.injEq, Prod.mk.injEq] at h
        obtain ⟨rfl, rfl⟩ := h
        have hq1 := hq sent1 (List.mem_cons_self _ _)
        have hb : s1.sendBattery = s.sendBattery + 1 := by
          rcases loop_cases i s s1 sent1 hl with ⟨_, _, _, hb, _⟩ | ⟨_, _, _, hb, _⟩ |
            ⟨_, _, hsent, _⟩
          · exact hb
          · exact hb
          · rw [hsent] at hq1
            simp [reportsBattery] at hq1
        have := ih s1 s2 tr hr (fun e he => hq e (List.mem_cons_of_mem _ he))
        rw [this, hb]
        simp only [List.length_cons, Nat.cast_add, Nat.cast_one]
        omega

/-- A wake cycle leaves `lastTemperature` unchanged or stores the decimal value
of the sample in it. -/
theorem loop_lastTemperature (i : Input) (s s' : State) (sent : List Event)
    (h : loop i s = some (s', sent)) :
    s'.lastTemperature = s.lastTemperature ∨
      s'.lastTemperature = (i.data.celsiusHundredths : ℚ) / 100 := by
  unfold loop at h
  simp only at h
  split at h
  · exact Option.noConfusion h
  · rename_i s1 sent1 hsm
    simp only [Option.some.injEq, Prod.mk.injEq] at h
    obtain ⟨rfl, rfl⟩ := h
    cases hf : forceTransmit s with
    | true =>
      simp only [hf, if_true] at hsm
      rcases sendMeasurements_cases _ _ _ _ _ hsm with ⟨_, rfl, _⟩ | ⟨_, _, rfl, _⟩ |
        ⟨_, _, _, _, rfl, _⟩
      · exact Or.inl rfl
      · exact Or.inr rfl
      · exact Or.inr rfl
    | false =>
      simp only [hf] at hsm
      rcases sendMeasurements_cases _ _ _ _ _ hsm with ⟨_, rfl, _⟩ | ⟨_, _, rfl, _⟩ |
        ⟨_, _, _, _, rfl, _⟩
      · exact Or.inl rfl
      · exact Or.inr rfl
      · exact Or.inr rfl

/-- The decimal value of a sample of the 16 bit range. -/
theorem isHundredths_sample (c : Int) (hlo : -32768 ≤ c) (hhi : c ≤ 32767) :
    isHundredths ((c : ℚ) / 100) :=
  (isHundredths_iff _).mpr ⟨c, hlo, hhi, rfl⟩

/-- During a run whose samples are of the 16 bit range `lastTemperature` stays a
decimal value of that range. -/
theorem run_isHundredths (is : List Input) :
    ∀ (s s' : State) (trace : List (List Event)), run is s = some (s', trace) →
      isHundredths s.lastTemperature →
      (∀ i ∈ is, -32768 ≤ i.data.celsiusHundredths ∧ i.data.celsiusHundredths ≤ 32767) →
      isHundredths s'.lastTemperature := by
  induction is with
  | nil =>
    intro s s' trace h hwf _
    simp only [run, Option.some.injEq, Prod.mk.injEq] at h
    rw [← h.1]
    exact hwf
  | cons i rest ih =>
    intro s s' trace h hwf hr
    simp only [run] at h
    split at h
    · exact Option.noConfusion h
    · rename_i s1 sent1 hl
      split at h
      · exact Option.noConfusion h
      · rename_i s2 tr hrun
        simp only [Option.some.injEq, Prod.mk.injEq] at h
        obtain ⟨rfl, rfl⟩ := h
        have h1 : isHundredths s1.lastTemperature := by
          rcases loop_lastTemperature i s s1 sent1 hl with he | he
          · rw [he]; exact hwf
          · rw [he]
            exact isHundredths_sample _ (hr i (List.mem_cons_self _ _)).1
              (hr i (List.mem_cons_self _ _)).2
        exact ih s1 s2 tr hrun h1 (fun j hj => hr j (List.mem_cons_of_mem _ hj))

/-- After `setup` and every later wake cycle `lastTemperature` is a decimal value
`n / 100` of the 16 bit range, provided the samples are of that range: the
states for which `diffTemp` is computed on rounded values are the states that
arise. -/
theorem reachable_isHundredths (i0 : Input) (is : List Input) (s0 s : State)
    (sent0 : List Event) (trace : List (List Event))
    (hsetup : setup i0 = some (s0, sent0)) (hrun : run is s0 = some (s, trace))
    (hr : ∀ i ∈ i0 :: is,
      -32768 ≤ i.data.celsiusHundredths ∧ i.data.celsiusHundredths ≤ 32767) :
    isHundredths s0.lastTemperature ∧ isHundredths s.lastTemperature := by
  have h0 : isHundredths s0.lastTemperature := by
    unfold setup at hsetup
    simp only at hsetup
    split at hsetup
    · exact Option.noConfusion hsetup
    · rename_i s1 sent1 hsm
      split at hsetup
      · exact Option.noConfusion hsetup
      · rename_i s2 sentB hb
        simp only [Option.some.injEq, Prod.mk.injEq] at hsetup
        obtain ⟨rfl, _⟩ := hsetup
        have h1 : isHundredths s1.lastTemperature := by
          rcases sendMeasurements_cases _ _ _ _ _ hsm with ⟨_, rfl, _⟩ | ⟨_, _, rfl, _⟩ |
            ⟨_, _, _, _, rfl, _⟩
          · exact (isHundredths_iff _).mpr ⟨-10000, by decide, by decide, by
              simp [initState]; norm_num⟩
          · exact isHundredths_sample _ (hr i0 (List.mem_cons_self _ _)).1
              (hr i0 (List.mem_cons_self _ _)).2
          · exact isHundredths_sample _ (hr i0 (List.mem_cons_self _ _)).1
              (hr i0 (List.mem_cons_self _ _)).2
        have h2 : s2.lastTemperature = s1.lastTemperature := by
          unfold sendBattLevel at hb
          simp only [Bool.false_eq_true, if_false] at hb
          split at hb
          · exact Option.noConfusion hb
          · split at hb
            · simp only [Option.some.injEq, Prod.mk.injEq] at hb
              rw [← hb.1]
            · simp only [Option.some.injEq, Prod.mk.injEq] at hb
              rw [← hb.1]
        rw [h2]
        exact h1
  exact ⟨h0, run_isHundredths is s0 s trace hrun h0
    (fun j hj => hr j (List.mem_cons_of_mem _ hj))⟩

/-! ## The update window -/

/-- C13: a wake cycle waits for `OTA_WAIT_PERIOD` if and only if it transmitted
(temperature and humidity, or a battery report) during that same cycle, which
is when it leaves `transmission_occured` set; the value that
`transmission_occured` had before the cycle has no influence, because the flag
is cleared first.  Every cycle ends with a sleep of `MEASURE_INTERVAL`. -/
theorem update_window (i : Input) (s : State) (hadc : adcValid i) :
    ∃ s' sent, loop i s = some (s', sent) ∧
      (Event.wait OTA_WAIT_PERIOD ∈ sent ↔
        (transmits sent = true ∨ reportsBattery sent = true)) ∧
      (Event.wait OTA_WAIT_PERIOD ∈ sent ↔ s'.transmission_occured = true) ∧
      (∀ b : Bool, loop i { s with transmission_occured := b } = some (s', sent)) ∧
      sent.getLast? = some (Event.sleep MEASURE_INTERVAL) := by
  obtain ⟨⟨s', sent⟩, hl⟩ := loop_total i s hadc
  refine ⟨s', sent, hl, ?_⟩
  have hb : ∀ b : Bool, loop i { s with transmission_occured := b } = some (s', sent) := by
    intro b
    rw [← hl]
    rfl
  rcases loop_cases i s s' sent hl with ⟨rfl, _, _, _, ht, _⟩ | ⟨rfl, _, _, _, ht, _⟩ |
    ⟨_, _, rfl, _, _, _, ht, _⟩
  · refine ⟨?_, ?_, hb, rfl⟩
    · simp [transmits, reportsBattery]
    · simp [ht]
  · refine ⟨?_, ?_, hb, rfl⟩
    · simp [transmits, reportsBattery]
    · simp [ht]
  · refine ⟨?_, ?_, hb, rfl⟩
    · simp [transmits, reportsBattery]
    · simp [ht]

/-- Witness for C13: a steady cycle entered with `transmission_occured` still set
from the cycle before. -/
theorem update_window_witness :
    adcValid ⟨⟨2000, 50⟩, 194, 1⟩ ∧
    ∃ s' sent, loop ⟨⟨2000, 50⟩, 194, 1⟩
        { measureCount := 0, sendBattery := 0, transmission_occured := true,
          lastTemperature := 20, lastHumidity := 50, lastBattery := 2500,
          raHum := { size := 2, values := [50] } } = some (s', sent) ∧
      (Event.wait OTA_WAIT_PERIOD ∈ sent ↔
        (transmits sent = true ∨ reportsBattery sent = true)) ∧
      (Event.wait OTA_WAIT_PERIOD ∈ sent ↔ s'.transmission_occured = true) ∧
      (∀ b : Bool, loop ⟨⟨2000, 50⟩, 194, 1⟩
        { measureCount := 0, sendBattery := 0, transmission_occured := b,
          lastTemperature := 20, lastHumidity := 50, lastBattery := 2500,
          raHum := { size := 2, values := [50] } } = some (s', sent)) ∧
      sent.getLast? = some (Event.sleep MEASURE_INTERVAL) :=
  ⟨by decide!, update_window ⟨⟨2000, 50⟩, 194, 1⟩
    { measureCount := 0, sendBattery := 0, transmission_occured := true,
      lastTemperature := 20, lastHumidity := 50, lastBattery := 2500,
      raHum := { size := 2, values := [50] } } (by decide!)⟩

/-! ## The battery counter -/

/-- C16: at the end of `setup` and at the end of every later wake cycle
`sendBattery <= 60 + measureCount`, hence `0 <= sendBattery <= 89`; and from a
state inside the invariant the number of consecutive cycles without a battery
report is at most `89 - sendBattery`, so that after a reset of the counter the
next forced battery report comes at most 90 cycles later. -/
theorem sendBattery_invariant :
    (∀ (i0 : Input) (is : List Input), (∀ i ∈ i0 :: is, adcValid i) →
      ∃ s0 sent0 s trace, setup i0 = some (s0, sent0) ∧ run is s0 = some (s, trace) ∧
        s.sendBattery ≤ 60 + s.measureCount ∧ 0 ≤ s.sendBattery ∧ s.sendBattery ≤ 89) ∧
    (∀ (s : State) (is : List Input) (s' : State) (trace : List (List Event)),
      0 ≤ s.measureCount → s.measureCount < FORCE_TRANSMIT_INTERVAL →
      0 ≤ s.sendBattery → s.sendBattery ≤ 60 + s.measureCount →
      (∀ i ∈ is, adcValid i) → run is s = some (s', trace) →
      (∀ sent ∈ trace, reportsBattery sent = false) →
      s.sendBattery + is.length ≤ 89) := by
  constructor
  · intro i0 is hv
    obtain ⟨s0, sent0, hs, hm, hb, _⟩ := setup_counters i0 (hv i0 (List.mem_cons_self _ _))
    obtain ⟨s, trace, hr, g0, g1, g2, g3⟩ :=
      run_counters is s0 (by rw [hm]) (by rw [hm]; decide) (by rw [hb]) (by rw [hb, hm]; decide)
        (fun i hi => hv i (List.mem_cons_of_mem _ hi))
    refine ⟨s0, sent0, s, trace, hs, hr, g3, g2, ?_⟩
    unfold FORCE_TRANSMIT_INTERVAL at g1
    omega
  · intro s is s' trace h0 h1 h2 h3 hv hr hq
    obtain ⟨s2, trace2, hr2, _, g1, _, g3⟩ := run_counters is s h0 h1 h2 h3 hv
    rw [hr] at hr2
    simp only [Option.some.injEq, Prod.mk.injEq] at hr2
    obtain ⟨rfl, rfl⟩ := hr2
    have hc := run_unreported_count is s s' trace hr hq
    unfold FORCE_TRANSMIT_INTERVAL at g1
    omega

/-- Witness for C16: `setup` followed by 61 steady cycles, and the 29 cycles
without a battery report that follow the second forced transmission. -/
theorem sendBattery_invariant_witness :
    (∃ s0 sent0 s trace, setup ⟨⟨2000, 50⟩, 194, 1⟩ = some (s0, sent0) ∧
      run (List.replicate 61 ⟨⟨2000, 50⟩, 194, 1⟩) s0 = some (s, trace) ∧
      s.sendBattery ≤ 60 + s.measureCount ∧ 0 ≤ s.sendBattery ∧ s.sendBattery ≤ 89) ∧
    ((60 : Int) + ((List.replicate 29 (⟨⟨2000, 50⟩, 194, 1⟩ : Input)).length : Int) ≤ 89) :=
  ⟨sendBattery_invariant.1 ⟨⟨2000, 50⟩, 194, 1⟩ (List.replicate 61 ⟨⟨2000, 50⟩, 194, 1⟩)
      (by decide!),
    sendBattery_invariant.2
      { measureCount := 0, sendBattery := 60, transmission_occured := true,
        lastTemperature := 20, lastHumidity := 50, lastBattery := 2500,
        raHum := { size := 2, values := [50, 50] } }
      (List.replicate 29 ⟨⟨2000, 50⟩, 194, 1⟩)
      { measureCount := 29, sendBattery := 89, transmission_occured := false,
        lastTemperature := 20, lastHumidity := 50, lastBattery := 2500,
        raHum := { size := 2, values := [50, 50] } }
      (List.replicate 29 [Event.sleep 60000])
      (by decide) (by decide) (by decide) (by decide) (by decide!) (by decide!) (by decide!)⟩

/-! ## Frame of `sendMeasurements` -/

/-- C14: after a call of `sendMeasurements` that transmits, `lastTemperature` is
the emitted temperature `celsiusHundredths / 100`, `lastHumidity` is the emitted
humidity and `transmission_occured` is true; after a call that does not
transmit nothing was emitted and `lastTemperature`, `lastHumidity`,
`lastBattery`, `measureCount`, `sendBattery` and `transmission_occured` are
unchanged. -/
theorem sendMeasurements_frame (force : Bool) (i : Input) (s : State) (hadc : adcValid i) :
    ∃ s' sent, sendMeasurements force i s = some (s', sent) ∧
      (transmits sent = true →
        s'.lastTemperature = (i.data.celsiusHundredths : ℚ) / 100 ∧
        (∀ v, Event.temperature v ∈ sent ↔ v = s'.lastTemperature) ∧
        (∀ v, Event.humidity v ∈ sent ↔ v = s'.lastHumidity) ∧
        s'.transmission_occured = true) ∧
      (transmits sent = false →
        sent = [] ∧
        s'.lastTemperature = s.lastTemperature ∧ s'.lastHumidity = s.lastHumidity ∧
        s'.lastBattery = s.lastBattery ∧ s'.measureCount = s.measureCount ∧
        s'.sendBattery = s.sendBattery ∧
        s'.transmission_occured = s.transmission_occured) := by
  cases htx : txDecision force s i.data with
  | false =>
    refine ⟨_, _, sendMeasurements_of_not_tx force i s htx, ?_, ?_⟩
    · intro ht
      simp [transmits] at ht
    · intro _
      exact ⟨rfl, rfl, rfl, rfl, rfl, rfl, rfl⟩
  | true =>
    by_cases hb : 60 < s.sendBattery
    · refine ⟨_, _, sendMeasurements_of_tx_high force i s _ htx hb
        (readVcc_of_ne_zero _ _ hadc), ?_, ?_⟩
      · intro _
        refine ⟨rfl, ?_, ?_, rfl⟩
        · intro v
          simp [eq_comm]
        · intro v
          simp [eq_comm]
      · intro hn
        simp [transmits] at hn
    · refine ⟨_, _, sendMeasurements_of_tx_low force i s htx (not_lt.mp hb), ?_, ?_⟩
      · intro _
        refine ⟨rfl, ?_, ?_, rfl⟩
        · intro v
          simp [eq_comm]
        · intro v
          simp [eq_comm]
      · intro hn
        simp [transmits] at hn

/-- Witness for C14: a threshold transmission of 20.40 degrees and 50 percent. -/
theorem sendMeasurements_frame_witness :
    adcValid ⟨⟨2040, 50⟩, 194, 1⟩ ∧
    ∃ s' sent, sendMeasurements false ⟨⟨2040, 50⟩, 194, 1⟩
        { initState with lastTemperature := 20, lastHumidity := 50 } = some (s', sent) ∧
      (transmits sent = true →
        s'.lastTemperature = ((2040 : Int) : ℚ) / 100 ∧
        (∀ v, Event.temperature v ∈ sent ↔ v = s'.lastTemperature) ∧
        (∀ v, Event.humidity v ∈ sent ↔ v = s'.lastHumidity) ∧
        s'.transmission_occured = true) ∧
      (transmits sent = false →
        sent = [] ∧
        s'.lastTemperature = 20 ∧ s'.lastHumidity = 50 ∧
        s'.lastBattery = -100 ∧ s'.measureCount = 0 ∧
        s'.sendBattery = 0 ∧
        s'.transmission_occured = false) :=
  ⟨by decide!, sendMeasurements_frame false ⟨⟨2040, 50⟩, 194, 1⟩
    { initState with lastTemperature := 20, lastHumidity := 50 } (by decide!)⟩

/-! ## The self-test -/

/-- C11: for every combination of probe outcomes `testMode` ends in the
"passed" loop if and only if the sensor probe succeeded, the storage probe
succeeded, and the identity chip probe succeeded both in its wake step and in
its serial number step; every other combination ends in the "failed" loop, for
instance sensor and storage passing and the identity chip failing to wake. -/
theorem selftest_aggregation (SHA204_SUCCESS : Nat) (p : ProbeResults) :
    ((testMode SHA204_SUCCESS p).1 = SelfTestResult.passed ↔
      (p.sensorBegin = true ∧ p.flashInitialize = true ∧
        p.wakeup = SHA204_SUCCESS ∧ p.serialNumber = SHA204_SUCCESS)) ∧
    ((testMode SHA204_SUCCESS p).1 = SelfTestResult.failed ↔
      ¬ (p.sensorBegin = true ∧ p.flashInitialize = true ∧
        p.wakeup = SHA204_SUCCESS ∧ p.serialNumber = SHA204_SUCCESS)) ∧
    (∀ code serial : Nat, code ≠ SHA204_SUCCESS →
      (testMode SHA204_SUCCESS ⟨true, true, code, serial⟩).1 = SelfTestResult.failed) := by
  refine ⟨?_, ?_, ?_⟩
  · obtain ⟨a, b, w, n⟩ := p
    by_cases hw : w = SHA204_SUCCESS <;> by_cases hn : n = SHA204_SUCCESS <;>
      cases a <;> cases b <;> simp [testMode, hw, hn]
  · obtain ⟨a, b, w, n⟩ := p
    by_cases hw : w = SHA204_SUCCESS <;> by_cases hn : n = SHA204_SUCCESS <;>
      cases a <;> cases b <;> simp [testMode, hw, hn]
  · intro code serial hc
    simp [testMode, hc]

/-- Witness for C11: sensor and storage pass, the identity chip answers the wake
with the status 0xD2 instead of the success status 0. -/
theorem selftest_aggregation_witness :
    ((testMode 0 ⟨true, true, 210, 0⟩).1 = SelfTestResult.passed ↔
      ((true = true) ∧ (true = true) ∧ (210 : Nat) = 0 ∧ (0 : Nat) = 0)) ∧
    (testMode 0 ⟨true, true, 210, 0⟩).1 = SelfTestResult.failed :=
  ⟨(selftest_aggregation 0 ⟨true, true, 210, 0⟩).1,
    (selftest_aggregation 0 ⟨true, true, 210, 0⟩).2.2 210 0 (by decide)⟩

/-- C15: whatever the probe outcomes, `testMode` calls the sensor probe, then
the storage probe, then the identity chip wake, each exactly once and in that
order; the serial number is requested, after the wake, if and only if the wake
succeeded. -/
theorem selftest_probe_sequence (SHA204_SUCCESS : Nat) (p : ProbeResults) :
    (testMode SHA204_SUCCESS p).2 =
      [ProbeCall.sensorBegin, ProbeCall.flashInitialize, ProbeCall.sha204Wakeup] ++
        (if p.wakeup = SHA204_SUCCESS then [ProbeCall.getSerialNumber] else []) ∧
    (ProbeCall.getSerialNumber ∈ (testMode SHA204_SUCCESS p).2 ↔
      p.wakeup = SHA204_SUCCESS) ∧
    (testMode SHA204_SUCCESS p).2.count ProbeCall.sensorBegin = 1 ∧
    (testMode SHA204_SUCCESS p).2.count ProbeCall.flashInitialize = 1 ∧
    (testMode SHA204_SUCCESS p).2.count ProbeCall.sha204Wakeup = 1 := by
  obtain ⟨a, b, w, n⟩ := p
  by_cases hw : w = SHA204_SUCCESS <;> by_cases hn : n = SHA204_SUCCESS <;>
    cases a <;> cases b <;> simp [testMode, hw, hn]

/-! ## The smoothing window -/

/-- After `addValue` the window holds at most `size` values. -/
theorem addValue_length_le (ra : RunningAverage) (v : ℚ) :
    (ra.addValue v).values.length ≤ ra.size := by
  simp only [RunningAverage.addValue, List.length_drop, List.length_append,
    List.length_singleton]
  omega

/-- Adding values keeps the capacity of the window. -/
theorem foldl_addValue_size (xs : List ℚ) :
    ∀ ra : RunningAverage, (xs.foldl RunningAverage.addValue ra).size = ra.size := by
  induction xs with
  | nil => intro ra; rfl
  | cons x rest ih =>
    intro ra
    rw [List.foldl_cons, ih]
    rfl

/-- After a sequence of values has been added to a window that held at most
`size` values, the window holds the last `size` values of what it held before
followed by the sequence. -/
theorem foldl_addValue_values (xs : List ℚ) :
    ∀ ra : RunningAverage, ra.values.length ≤ ra.size →
      (xs.foldl RunningAverage.addValue ra).values =
        (ra.values ++ xs).drop ((ra.values ++ xs).length - ra.size) := by
  induction xs with
  | nil =>
    intro ra hle
    simp only [List.foldl_nil, List.append_nil]
    rw [Nat.sub_eq_zero_of_le hle, List.drop_zero]
  | cons x rest ih =>
    intro ra _
    rw [List.foldl_cons, ih _ (addValue_length_le ra x)]
    have hsz : (ra.addValue x).size = ra.size := rfl
    have hvals : (ra.addValue x).values =
        (ra.values ++ [x]).drop ((ra.values ++ [x]).length - ra.size) := rfl
    rw [hsz, hvals]
    have hsplit : ra.values ++ x :: rest = (ra.values ++ [x]) ++ rest := by simp
    rw [hsplit, ← List.drop_append_of_le_length (Nat.sub_le _ _), List.drop_drop]
    congr 1
    simp only [List.length_drop, List.length_append, List.length_singleton]
    omega

/-- The average of a window that holds at least one value. -/
theorem getAverage_of_ne_nil (ra : RunningAverage) (h : ra.values ≠ []) :
    ra.getAverage = some (ra.values.sum / (ra.values.length : ℚ)) := by
  unfold RunningAverage.getAverage
  rw [if_neg]
  intro h0
  exact h (List.length_eq_zero.mp h0)

/-- C12: after `k >= 1` samples have been added to a cleared window of capacity
`AVERAGES`, the average is the arithmetic mean of the most recent
`min k AVERAGES` samples; samples older than the last `AVERAGES` have no
influence on it.  Every call of `sendMeasurements` adds exactly its humidity
sample to the window, and `diffHum` is computed from the average taken after
that. -/
theorem smoothing_window_bound (ra : RunningAverage) (xs : List ℚ)
    (hsize : ra.size = AVERAGES) (hne : xs ≠ []) :
    (xs.foldl RunningAverage.addValue ra.clear).getAverage =
      some ((xs.drop (xs.length - AVERAGES)).sum / ((min xs.length AVERAGES : Nat) : ℚ)) ∧
    (∀ older : List ℚ, AVERAGES ≤ xs.length →
      ((older ++ xs).foldl RunningAverage.addValue ra.clear).getAverage =
        (xs.foldl RunningAverage.addValue ra.clear).getAverage) ∧
    (∀ (force : Bool) (i : Input) (s s' : State) (sent : List Event),
      sendMeasurements force i s = some (s', sent) →
      s'.raHum = s.raHum.addValue (i.data.humidityPercent : ℚ) ∧
      diffHum s i.data = (s'.raHum.getAverage).map (fun a => |(s.lastHumidity : ℚ) - a|)) := by
  have hvals : ∀ ys : List ℚ, (ys.foldl RunningAverage.addValue ra.clear).values =
      ys.drop (ys.length - AVERAGES) := by
    intro ys
    rw [foldl_addValue_values ys ra.clear (Nat.zero_le _)]
    simp [RunningAverage.clear, hsize]
  have hform : ∀ ys : List ℚ, ys ≠ [] →
      (ys.foldl RunningAverage.addValue ra.clear).getAverage =
        some ((ys.drop (ys.length - AVERAGES)).sum /
          ((min ys.length AVERAGES : Nat) : ℚ)) := by
    intro ys hys
    have hpos : 0 < ys.length := List.length_pos.mpr hys
    have hnn : (ys.foldl RunningAverage.addValue ra.clear).values ≠ [] := by
      rw [hvals]
      intro h0
      have := congrArg List.length h0
      simp only [List.length_drop, List.length_nil, AVERAGES] at this
      omega
    rw [getAverage_of_ne_nil _ hnn, hvals]
    have hlen : (ys.drop (ys.length - AVERAGES)).length = min ys.length AVERAGES := by
      simp only [List.length_drop]
      omega
    rw [hlen]
  refine ⟨hform xs hne, ?_, ?_⟩
  · intro older hk
    have hne2 : older ++ xs ≠ [] := by
      intro h0
      exact hne (List.append_eq_nil.mp h0).2
    rw [hform _ hne2, hform _ hne]
    have hd : (older ++ xs).drop ((older ++ xs).length - AVERAGES) =
        xs.drop (xs.length - AVERAGES) := by
      have : (older ++ xs).length - AVERAGES = older.length + (xs.length - AVERAGES) := by
        simp only [List.length_append]
        omega
      rw [this, List.drop_append]
    have hm : min (older ++ xs).length AVERAGES = min xs.length AVERAGES := by
      simp only [List.length_append]
      omega
    rw [hd, hm]
  · intro force i s s' sent h
    have hra : s'.raHum = s.raHum.addValue (i.data.humidityPercent : ℚ) := by
      rcases sendMeasurements_cases force i s s' sent h with ⟨_, rfl, _⟩ | ⟨_, _, rfl, _⟩ |
        ⟨_, _, _, _, rfl, _⟩ <;> rfl
    exact ⟨hra, by rw [hra]; rfl⟩

/-- Witness for C12: the samples 40, 50, 60 added to a cleared window. -/
theorem smoothing_window_bound_witness :
    ([40, 50, 60].foldl RunningAverage.addValue
        (RunningAverage.create AVERAGES).clear).getAverage =
      some ((([40, 50, 60] : List ℚ).drop (([40, 50, 60] : List ℚ).length - AVERAGES)).sum /
        ((min ([40, 50, 60] : List ℚ).length AVERAGES : Nat) : ℚ)) ∧
    (some ((([40, 50, 60] : List ℚ).drop (([40, 50, 60] : List ℚ).length - AVERAGES)).sum /
        ((min ([40, 50, 60] : List ℚ).length AVERAGES : Nat) : ℚ)) = some (55 : ℚ)) :=
  ⟨(smoothing_window_bound (RunningAverage.create AVERAGES) [40, 50, 60] rfl (by decide)).1,
    by decide!⟩


/-- The window is not empty after `addValue` when its capacity is positive. -/
theorem addValue_values_ne_nil (ra : RunningAverage) (v : ℚ) (h : 0 < ra.size) :
    (ra.addValue v).values ≠ [] := by
  intro h0
  have := congrArg List.length h0
  simp only [RunningAverage.addValue, List.length_drop, List.length_append,
    List.length_singleton, List.length_nil] at this
  omega

/-! ## The not-a-number path -/

/-- C18: the current humidity is added to the window before the average is
read, so in `sendMeasurements` the window is not empty when the average is
taken: `diffHum` is a number, the test `isnan(diffHum)` is false and the
decision to transmit is the force flag or one of the two thresholds.  This
holds in every state whose window has a positive capacity, in particular (the
capacity being `AVERAGES`) in the state left by `setup` and after every later
wake cycle. -/
theorem nan_path_unreachable :
    (∀ (force : Bool) (s : State) (d : si7021_thc), 0 < s.raHum.size →
      (raHumAfter s d).values ≠ [] ∧
      (∃ a, diffHum s d = some a) ∧
      isnan (diffHum s d) = false ∧
      (txDecision force s d = true ↔
        (force = true ∨ TEMP_TRANSMIT_THRESHOLD ≤ diffTemp s d ∨
          ∃ a, diffHum s d = some a ∧ HUMI_TRANSMIT_THRESHOLD ≤ a))) ∧
    (∀ (i0 : Input) (is : List Input), (∀ i ∈ i0 :: is, adcValid i) →
      ∃ s0 sent0 s trace, setup i0 = some (s0, sent0) ∧ run is s0 = some (s, trace) ∧
        s0.raHum.size = AVERAGES ∧ s.raHum.size = AVERAGES ∧ 0 < s.raHum.size) := by
  constructor
  · intro force s d hsize
    have hne : (raHumAfter s d).values ≠ [] := addValue_values_ne_nil _ _ hsize
    have havg := getAverage_of_ne_nil _ hne
    have hd : diffHum s d = some |(s.lastHumidity : ℚ) -
        (raHumAfter s d).values.sum / ((raHumAfter s d).values.length : ℚ)| := by
      simp only [diffHum, havg, Option.map_some']
    refine ⟨hne, ⟨_, hd⟩, by rw [hd]; rfl, ?_⟩
    rw [txDecision_iff]
    constructor
    · rintro (h | h | h | h)
      · exact Or.inl h
      · exact Or.inr (Or.inl h)
      · exact Or.inr (Or.inr h)
      · rw [hd] at h
        exact Option.noConfusion h
    · rintro (h | h | h)
      · exact Or.inl h
      · exact Or.inr (Or.inl h)
      · exact Or.inr (Or.inr (Or.inl h))
  · intro i0 is hv
    obtain ⟨s0, sent0, hs, hm, hb, hz⟩ := setup_counters i0 (hv i0 (List.mem_cons_self _ _))
    obtain ⟨s, trace, hr, _⟩ :=
      run_counters is s0 (by rw [hm]) (by rw [hm]; decide) (by rw [hb]) (by rw [hb, hm]; decide)
        (fun i hi => hv i (List.mem_cons_of_mem _ hi))
    have hz2 : s.raHum.size = AVERAGES := (run_size is s0 s trace hr).trans hz
    exact ⟨s0, sent0, s, trace, hs, hr, hz, hz2, by rw [hz2]; decide⟩

/-- Witness for C18: the first call in `setup`, and `setup` followed by two
wake cycles. -/
theorem nan_path_unreachable_witness :
    ((raHumAfter { initState with raHum := initState.raHum.clear } ⟨2150, 47⟩).values ≠ [] ∧
      (∃ a, diffHum { initState with raHum := initState.raHum.clear } ⟨2150, 47⟩ = some a) ∧
      isnan (diffHum { initState with raHum := initState.raHum.clear } ⟨2150, 47⟩) = false ∧
      (txDecision false { initState with raHum := initState.raHum.clear } ⟨2150, 47⟩ = true ↔
        (false = true ∨
          TEMP_TRANSMIT_THRESHOLD ≤
            diffTemp { initState with raHum := initState.raHum.clear } ⟨2150, 47⟩ ∨
          ∃ a, diffHum { initState with raHum := initState.raHum.clear } ⟨2150, 47⟩ = some a ∧
            HUMI_TRANSMIT_THRESHOLD ≤ a))) ∧
    (∃ s0 sent0 s trace, setup ⟨⟨2150, 47⟩, 194, 1⟩ = some (s0, sent0) ∧
      run [⟨⟨2150, 47⟩, 194, 1⟩, ⟨⟨2190, 48⟩, 194, 1⟩] s0 = some (s, trace) ∧
      s0.raHum.size = AVERAGES ∧ s.raHum.size = AVERAGES ∧ 0 < s.raHum.size) :=
  ⟨nan_path_unreachable.1 false { initState with raHum := initState.raHum.clear } ⟨2150, 47⟩
      (by decide),
    nan_path_unreachable.2 ⟨⟨2150, 47⟩, 194, 1⟩
      [⟨⟨2150, 47⟩, 194, 1⟩, ⟨⟨2190, 48⟩, 194, 1⟩] (by decide!)⟩

/-! ## Steady readings -/

/-- After the same value has been added twice, a window of capacity `AVERAGES`
holds exactly that value twice, whatever it held before. -/
theorem addValue_twice_values (ra : RunningAverage) (v : ℚ) (hsize : ra.size = AVERAGES) :
    ((ra.addValue v).addValue v).values = [v, v] := by
  have h := foldl_addValue_values [v] (ra.addValue v) (addValue_length_le ra v)
  simp only [List.foldl_cons, List.foldl_nil] at h
  rw [h]
  have hsz : (ra.addValue v).size = 2 := hsize
  have hvals : (ra.addValue v).values =
      (ra.values ++ [v]).drop ((ra.values ++ [v]).length - ra.size) := rfl
  rw [hsz, hvals, hsize]
  simp only [AVERAGES, List.length_append, List.length_drop, List.length_singleton]
  rcases hl : ra.values with _ | ⟨a, _ | ⟨b, rest⟩⟩
  · simp
  · simp
  · have h1 : (a :: b :: rest ++ [v]) = (a :: b :: rest) ++ [v] := rfl
    have e1 : (a :: b :: rest).length + 1 - 2 = rest.length + 1 := by
      simp only [List.length_cons]
      omega
    rw [e1]
    have e2 : (a :: b :: rest).length + 1 - (rest.length + 1) + 1 - 2 = 1 := by
      simp only [List.length_cons]
      omega
    rw [e2, ← List.drop_append_of_le_length (by simp), List.drop_drop]
    have e3 : (a :: b :: rest ++ [v] ++ [v]) = (a :: b :: rest) ++ [v, v] := by simp
    have e4 : rest.length + 1 + 1 = (a :: b :: rest).length := by simp
    rw [e3, e4, List.drop_left]

/-- C17: a steady reading must not be retransmitted, but the sketch retransmits
the sample (20.00 degrees, 65535 percent).  The humidity is averaged as the
unsigned value the sensor returns but stored in `lastHumidity` through
`int humidity`, a 16 bit integer on this target, which turns 65535 into -1.
The first call transmits and leaves `lastHumidity = -1` with an average of
65535, so an immediately following call `sendMeasurements(false)` with the same
sample sees a difference of 65536 and transmits again. -/
theorem steady_reading_retransmits :
    sendMeasurements false ⟨⟨2000, 65535⟩, 194, 1⟩
        { measureCount := 3, sendBattery := 3, transmission_occured := false,
          lastTemperature := 20, lastHumidity := 50, lastBattery := 2500,
          raHum := { size := 2, values := [50, 50] } } =
      some ({ measureCount := 0, sendBattery := 3, transmission_occured := true,
              lastTemperature := 20, lastHumidity := -1, lastBattery := 2500,
              raHum := { size := 2, values := [50, 65535] } },
        [Event.temperature 20, Event.humidity (-1)]) ∧
    transmits [Event.temperature 20, Event.humidity (-1)] = true ∧
    sendMeasurements false ⟨⟨2000, 65535⟩, 194, 1⟩
        { measureCount := 0, sendBattery := 3, transmission_occured := true,
          lastTemperature := 20, lastHumidity := -1, lastBattery := 2500,
          raHum := { size := 2, values := [50, 65535] } } =
      some ({ measureCount := 0, sendBattery := 3, transmission_occured := true,
              lastTemperature := 20, lastHumidity := -1, lastBattery := 2500,
              raHum := { size := 2, values := [65535, 65535] } },
        [Event.temperature 20, Event.humidity (-1)]) ∧
    toInt16 65535 = -1 ∧
    RunningAverage.getAverage { size := 2, values := [65535, 65535] } = some 65535 := by
  decide!

/-- The defect is confined to humidity values that `int humidity` cannot hold:
if a call of `sendMeasurements` transmits for a sample whose humidity is at
most 32767, an immediately following call `sendMeasurements(false)` with the
same sample emits nothing, for every prior state and every content of a window
of capacity `AVERAGES`. -/
theorem steady_no_retransmit (force : Bool) (i j : Input) (s s1 : State)
    (sent : List Event)
    (hsize : s.raHum.size = AVERAGES) (hhum : i.data.humidityPercent ≤ 32767)
    (hcall : sendMeasurements force i s = some (s1, sent))
    (htx : transmits sent = true) (hsame : j.data = i.data) :
    ∃ s2, sendMeasurements false j s1 = some (s2, []) := by
  have hint : toInt16 i.data.humidityPercent = (i.data.humidityPercent : Int) := by
    unfold toInt16
    have hmod : i.data.humidityPercent % 65536 = i.data.humidityPercent :=
      Nat.mod_eq_of_lt (by omega)
    rw [hmod, if_pos (by omega)]
  have hs1 : s1.lastTemperature = (i.data.celsiusHundredths : ℚ) / 100 ∧
      s1.lastHumidity = toInt16 i.data.humidityPercent ∧
      s1.raHum = s.raHum.addValue (i.data.humidityPercent : ℚ) := by
    rcases sendMeasurements_cases force i s s1 sent hcall with ⟨_, _, rfl⟩ | ⟨_, _, rfl, _⟩ |
      ⟨_, _, _, _, rfl, _⟩
    · simp [transmits] at htx
    · exact ⟨rfl, rfl, rfl⟩
    · exact ⟨rfl, rfl, rfl⟩
  obtain ⟨hT, hH, hR⟩ := hs1
  have hno : txDecision false s1 j.data = false := by
    rw [Bool.eq_false_iff, Ne, txDecision_iff, hsame]
    have hvals : (raHumAfter s1 i.data).values =
        [(i.data.humidityPercent : ℚ), (i.data.humidityPercent : ℚ)] := by
      unfold raHumAfter
      rw [hR]
      exact addValue_twice_values s.raHum _ hsize
    have havg : (raHumAfter s1 i.data).getAverage = some (i.data.humidityPercent : ℚ) := by
      rw [getAverage_of_ne_nil _ (by rw [hvals]; simp), hvals]
      simp only [List.sum_cons, List.sum_nil, List.length_cons, List.length_nil]
      congr 1
      push_cast
      ring
    have hdh : diffHum s1 i.data = some 0 := by
      simp only [diffHum, havg, Option.map_some', hH, hint]
      simp
    have hdt : diffTemp s1 i.data = 0 := by
      unfold diffTemp
      rw [hT]
      split_ifs <;> simp [roundF32_zero]
    rw [hdh, hdt]
    rintro (h | h | ⟨a, ha, h⟩ | h)
    · exact Bool.noConfusion h
    · exact absurd h (by unfold TEMP_TRANSMIT_THRESHOLD; rw [roundF32_three_tenths]; norm_num)
    · cases ha
      exact absurd h (by unfold HUMI_TRANSMIT_THRESHOLD; rw [roundF32_three_tenths]; norm_num)
    · exact Option.noConfusion h
  exact ⟨_, sendMeasurements_of_not_tx false j s1 hno⟩

/-- An instance of `steady_no_retransmit`: a threshold transmission of 20.40
degrees and 50 percent, followed by the same sample. -/
theorem steady_no_retransmit_witness :
    sendMeasurements false ⟨⟨2040, 50⟩, 194, 1⟩
        { measureCount := 3, sendBattery := 3, transmission_occured := false,
          lastTemperature := 20, lastHumidity := 50, lastBattery := 2500,
          raHum := { size := 2, values := [50, 50] } } =
      some ({ measureCount := 0, sendBattery := 3, transmission_occured := true,
              lastTemperature := 102 / 5, lastHumidity := 50, lastBattery := 2500,
              raHum := { size := 2, values := [50, 50] } },
        [Event.temperature (102 / 5), Event.humidity 50]) ∧
    ∃ s2, sendMeasurements false ⟨⟨2040, 50⟩, 194, 1⟩
        { measureCount := 0, sendBattery := 3, transmission_occured := true,
          lastTemperature := 102 / 5, lastHumidity := 50, lastBattery := 2500,
          raHum := { size := 2, values := [50, 50] } } = some (s2, []) :=
  ⟨by decide!, steady_no_retransmit false ⟨⟨2040, 50⟩, 194, 1⟩ ⟨⟨2040, 50⟩, 194, 1⟩
    { measureCount := 3, sendBattery := 3, transmission_occured := false,
      lastTemperature := 20, lastHumidity := 50, lastBattery := 2500,
      raHum := { size := 2, values := [50, 50] } }
    { measureCount := 0, sendBattery := 3, transmission_occured := true,
      lastTemperature := 102 / 5, lastHumidity := 50, lastBattery := 2500,
      raHum := { size := 2, values := [50, 50] } }
    [Event.temperature (102 / 5), Event.humidity 50]
    rfl (by decide) (by decide!) (by decide!) rfl⟩

/-! ## The supply reading -/

/-- For a 10 bit conversion result the expression `(high<<8) | low` is
`256 * high + low`. -/
theorem adcResult_ten_bit (adcl adch : Nat) (hl : adcl < 256) (hh : adch < 4) :
    adcResult adcl adch = ((adch * 256 + adcl : Nat) : Int) := by
  have hbits : ∀ a, a < 4 → ∀ b, b < 256 → ((a <<< 8) ||| b) = a * 256 + b := by decide!
  unfold adcResult toInt16
  rw [Nat.mod_eq_of_lt (by omega : adch < 256), Nat.mod_eq_of_lt hl, hbits adch hh adcl hl,
    Nat.mod_eq_of_lt (by omega : adch * 256 + adcl < 65536), if_pos (by omega)]

/-- C19: for every 10 bit ADC reading `r = 256 * ADCH + ADCL` with
`1 <= r <= 1023` the division in `readVcc` is defined and `readVcc` returns the
integer quotient `1125300 / r`, which lies between 1100 and 1125300 and
therefore differs from both battery sentinels -1 and -100; the division is
undefined exactly for the reading 0. -/
theorem readVcc_range (adcl adch : Nat) (hl : adcl < 256) (hh : adch < 4) :
    adch * 256 + adcl ≤ 1023 ∧
    (1 ≤ adch * 256 + adcl →
      ∃ vcc, readVcc adcl adch = some vcc ∧
        vcc = (1125300 : Int) / ((adch * 256 + adcl : Nat) : Int) ∧
        vcc = ((1125300 / (adch * 256 + adcl) : Nat) : Int) ∧
        1100 ≤ vcc ∧ vcc ≤ 1125300 ∧ vcc ≠ -1 ∧ vcc ≠ -100) ∧
    (readVcc adcl adch = none ↔ adch * 256 + adcl = 0) := by
  have hres := adcResult_ten_bit adcl adch hl hh
  refine ⟨by omega, ?_, ?_⟩
  · intro hr
    have hpos : (0 : Int) < ((adch * 256 + adcl : Nat) : Int) := by omega
    have hne : adcResult adcl adch ≠ 0 := by rw [hres]; omega
    have hq : Int.tdiv 1125300 (adcResult adcl adch) =
        (1125300 : Int) / ((adch * 256 + adcl : Nat) : Int) := by
      rw [hres, Int.tdiv_eq_ediv (by norm_num) (le_of_lt hpos)]
    have hlo : (1100 : Int) ≤ (1125300 : Int) / ((adch * 256 + adcl : Nat) : Int) := by
      apply Int.le_ediv_of_mul_le hpos
      omega
    have hhi : (1125300 : Int) / ((adch * 256 + adcl : Nat) : Int) ≤ 1125300 :=
      Int.ediv_le_self _ (by norm_num)
    refine ⟨_, readVcc_of_ne_zero adcl adch hne, hq, ?_, ?_, ?_, ?_, ?_⟩
    · rw [hq]
      norm_cast
    · rw [hq]; exact hlo
    · rw [hq]; exact hhi
    · rw [hq]; omega
    · rw [hq]; omega
  · unfold readVcc
    simp only [hres]
    constructor
    · intro h
      by_contra h0
      rw [if_neg (by omega)] at h
      exact Option.noConfusion h
    · intro h
      rw [if_pos (by omega)]

/-- Witness for C19: the reading 450 (`ADCH = 1`, `ADCL = 194`), that is 2500 mV. -/
theorem readVcc_range_witness :
    1 * 256 + 194 ≤ 1023 ∧
    (1 ≤ 1 * 256 + 194 →
      ∃ vcc, readVcc 194 1 = some vcc ∧
        vcc = (1125300 : Int) / ((1 * 256 + 194 : Nat) : Int) ∧
        vcc = ((1125300 / (1 * 256 + 194) : Nat) : Int) ∧
        1100 ≤ vcc ∧ vcc ≤ 1125300 ∧ vcc ≠ -1 ∧ vcc ≠ -100) ∧
    (readVcc 194 1 = none ↔ 1 * 256 + 194 = 0) :=
  readVcc_range 194 1 (by decide) (by decide)

end Sensebender
